import Mathlib

/-!
# pocket-base-events: the Redis event plugin

A shallow embedding of `plugins/plugins.go`.  The plugin sits between three
external collaborators: the PocketBase record store, the Redis bus and
`encoding/json`.  None of them is part of the repository, so each enters the
model as a field of `Env`; the plugin code itself (`Register`, `publishEvent`,
`ListenAndProcessEvents`, `processEvent`, `createRecord`, `updateRecord`,
`deleteRecord`) is translated function by function.

Every call the plugin makes on a collaborator is appended to a trace, so that
statements such as "Save is never called" or "exactly one Publish" can be read
off the result of running a function.
-/

set_option autoImplicit false

namespace Plugins

/-! ## Go values -/

/-- A Go `error` value, identified by its message. -/
abbrev GoError := String

/-- The dynamic values `encoding/json` stores in an `interface{}`: `nil`,
`bool`, `float64` (kept as its 64-bit pattern, the plugin never computes on
numbers), `string`, `[]interface{}` and `map[string]interface{}`.  A map is an
association list; the order of the list is the order in which a `range` loop
visits the entries. -/
inductive Any where
  | nil
  | bool (b : Bool)
  | float64 (bits : Nat)
  | string (s : String)
  | slice (xs : List Any)
  | map (kvs : List (String × Any))

/-- Field list of a record or of a decoded JSON object. -/
abbrev Fields := List (String × Any)

/-- Map read `m[key]` with the comma-ok result as an `Option`. -/
def Fields.get : Fields → String → Option Any
  | [], _ => none
  | (k, v) :: rest, key => if k = key then some v else Fields.get rest key

/-- Map write `m[key] = value`: replaces the entry when the key is present,
adds one otherwise. -/
def Fields.set : Fields → String → Any → Fields
  | [], key, value => [(key, value)]
  | (k, v) :: rest, key, value =>
    if k = key then (key, value) :: rest else (k, v) :: Fields.set rest key value

/-- The keys of a map, in iteration order. -/
def Fields.keys (m : Fields) : List String := m.map Prod.fst

/-- The part of `core.Collection` the plugin reads. -/
structure Collection where
  Id : String
  Name : String

/-- Modelled from the spec: `core.Record` of the store collaborator (section 6,
"Record field accessors: get(key) -> value, set(key, value)").  A record knows
its collection, whether it has been persisted yet, and its field values. -/
structure Record where
  collection : Collection
  isNew : Bool
  data : Fields

/-- Modelled from the spec: `Record.Set(key, value)`, a plain field write. -/
def Record.Set (r : Record) (key : String) (value : Any) : Record :=
  { r with data := r.data.set key value }

/-- Modelled from the spec: `Record.Get(key)`; a missing field reads as `nil`. -/
def Record.Get (r : Record) (key : String) : Any :=
  (r.data.get key).getD Any.nil

/-- The string conversion behind `Record.GetString` (`cast.ToString`): strings
are returned as they are, `nil` and the composite values give the empty
string, booleans their literal; the rendering of a number is left to
`fmt`. -/
def castToString (fmt : Nat → String) : Any → String
  | Any.string s => s
  | Any.bool true => "true"
  | Any.bool false => "false"
  | Any.float64 bits => fmt bits
  | Any.nil => ""
  | Any.slice _ => ""
  | Any.map _ => ""

/-- Modelled from the spec: `Record.GetString(key)`. -/
def Record.GetString (fmt : Nat → String) (r : Record) (key : String) : String :=
  castToString fmt (r.Get key)

/-- What the `interface{}` field `event.Record` can hold: a decoded JSON value
on the inbound side, a `*core.Record` on the outbound side. -/
inductive Payload where
  | any (v : Any)
  | record (r : Record)

/-- The envelope: `type event struct` of plugins.go. -/
structure event where
  Event : String
  Collection : String
  Record : Payload
  Source : String

/-- A `context.Context`, reduced to its key/value chain. -/
abbrev Context := List (String × Any)

/-- The empty context `context.Background()`. -/
def Context.Background : Context := []

/-- The derived context `context.WithValue(parent, key, value)`. -/
def Context.WithValue (parent : Context) (key : String) (value : Any) : Context :=
  (key, value) :: parent

/-- The lookup `ctx.Value(key)`; `nil` when the key is not bound. -/
def Context.Value (ctx : Context) (key : String) : Any :=
  (Fields.get ctx key).getD Any.nil

/-! ## Effects -/

/-- One observable call made by the plugin. -/
inductive Call where
  | log (level : String) (msg : String) (args : List String)
  | findCollectionByNameOrId (name : String)
  | findRecordById (collection : String) (id : String)
  | save (r : Record)
  | delete (r : Record)
  | publish (channel : String) (payload : String)
  | subscribe (channel : String)
  | processEvent (e : event)

/-- The external collaborators.  `σ` is the state of the record store, `β`
the state of the bus connection.

* `findCollectionByNameOrId`, `findRecordById`: store look-ups.
* `newRecordData`: the field values `core.NewRecord` starts a record with.
* `commitSave`, `commitDelete`: what `e.Next()` does inside a create/update,
  respectively delete, hook: validate and commit; on success the store has a
  new state and the record may carry store-assigned fields.
* `jsonMarshal`, `jsonUnmarshal`: `json.Marshal` of an envelope and
  `json.Unmarshal` into a fresh envelope.
* `busPublish`: `client.Publish(...).Err()`.
* `formatFloat`: number rendering used by `GetString`. -/
structure Env (σ β : Type) where
  findCollectionByNameOrId : σ → String → Except GoError Collection
  findRecordById : σ → String → String → Except GoError Record
  newRecordData : Collection → Fields
  commitSave : σ → Record → Except GoError (σ × Record)
  commitDelete : σ → Record → Except GoError (σ × Record)
  jsonMarshal : event → Except GoError String
  jsonUnmarshal : String → Except GoError event
  busPublish : β → String → String → β × Option GoError
  formatFloat : Nat → String

/-- The mutable world the plugin acts on: the store and the bus. -/
structure World (σ β : Type) where
  store : σ
  bus : β

/-- Result of running a piece of plugin code: it either returns a value or
panics; in both cases we know the world it leaves and the calls it made. -/
inductive Res (S α : Type) where
  | ret (a : α) (s : S) (tr : List Call)
  | panic (msg : String) (s : S) (tr : List Call)

/-- The world a run ends in. -/
def Res.world {S α : Type} : Res S α → S
  | Res.ret _ s _ => s
  | Res.panic _ s _ => s

/-- The calls a run made, oldest first. -/
def Res.trace {S α : Type} : Res S α → List Call
  | Res.ret _ _ tr => tr
  | Res.panic _ _ tr => tr

/-- Whether a run ended in a panic. -/
def Res.panicked {S α : Type} : Res S α → Bool
  | Res.ret _ _ _ => false
  | Res.panic _ _ _ => true

/-- The value a run returned, if it returned. -/
def Res.value? {S α : Type} : Res S α → Option α
  | Res.ret a _ _ => some a
  | Res.panic _ _ _ => none

/-- Plugin code: a function from the current world to a result. -/
def M (S α : Type) : Type := S → Res S α

/-- Return without effect. -/
def M.pure {S α : Type} (a : α) : M S α := fun s => Res.ret a s []

/-- Put the calls made earlier in front of the calls of a result. -/
def Res.prepend {S α : Type} (tr0 : List Call) : Res S α → Res S α
  | Res.ret a s tr => Res.ret a s (tr0 ++ tr)
  | Res.panic msg s tr => Res.panic msg s (tr0 ++ tr)

/-- Sequencing: a panic in the first part skips the second; traces are
concatenated. -/
def Res.andThen {S α γ : Type} (r : Res S α) (f : α → S → Res S γ) : Res S γ :=
  match r with
  | Res.ret a s1 tr1 => (f a s1).prepend tr1
  | Res.panic msg s1 tr1 => Res.panic msg s1 tr1

/-- The bind of `M`: run `m`, then `f` on its value in the world it left. -/
def M.bind {S α γ : Type} (m : M S α) (f : α → M S γ) : M S γ := fun s =>
  (m s).andThen f

instance instMonadM {S : Type} : Monad (M S) where
  pure := M.pure
  bind := M.bind

/-- Record one call in the trace. -/
def emit {S : Type} (c : Call) : M S Unit := fun s => Res.ret () s [c]

/-- A Go run-time panic. -/
def goPanic {S α : Type} (msg : String) : M S α := fun s => Res.panic msg s []

/-- Read the current world. -/
def getWorld {S : Type} : M S S := fun s => Res.ret s s []

/-- The type assertion `v.(string)` without comma-ok: panics unless the
dynamic type is `string`. -/
def assertString {S : Type} : Any → M S String
  | Any.string s => M.pure s
  | _ => goPanic "interface conversion: interface \x7b\x7d is not string"

/-- The type assertion `v.(map[string]interface{})` without comma-ok. -/
def assertMap {S : Type} : Payload → M S Fields
  | Payload.any (Any.map kvs) => M.pure kvs
  | _ => goPanic "interface conversion: interface \x7b\x7d is not map[string]interface \x7b\x7d"

section Code

variable {σ β : Type}

/-! ## Outbound side: `publishEvent` and the hooks bound by `Register` -/

/-- The bus write `rp.client.Publish(ctx, channel, payload).Err()`. -/
def Publish (env : Env σ β) (channel payload : String) : M (World σ β) (Option GoError) :=
  fun w =>
    Res.ret (env.busPublish w.bus channel payload).2
      { w with bus := (env.busPublish w.bus channel payload).1 }
      [Call.publish channel payload]

/-- The method `publishEvent` of plugins.go: build the envelope, marshal it,
log, publish on `pocketbase:events:publisher`.  Returns the Go error
(`none` for `nil`). -/
def publishEvent (env : Env σ β) (eventType collection : String) (record : Payload)
    (source : String) : M (World σ β) (Option GoError) :=
  match env.jsonMarshal
      { Event := eventType, Collection := collection, Record := record, Source := source } with
  | Except.error err => do
    emit (Call.log "error" "Failed to marshal event:" [err])
    return some err
  | Except.ok payload => do
    emit (Call.log "info" "Publishing Redis event:"
      ["type", eventType, "collection", collection, "source", source])
    Publish env "pocketbase:events:publisher" payload

/-- The argument of a record hook: the record of the mutation and the
continuation `e.Next()` that performs it. -/
structure RecordEvent (σ : Type) where
  Record : Plugins.Record
  Next : σ → Plugins.Record → Except GoError (σ × Plugins.Record)

/-- The body shared by the three closures of `Register` (they differ only in
the kind literal): run `e.Next()`, return its error if any; otherwise read
the `eventSource` field, fall back to `"pocketbase"` when it is empty, and
return what `publishEvent` returns. -/
def recordHook (env : Env σ β) (kind : String) (e : RecordEvent σ) :
    M (World σ β) (Option GoError) := fun w =>
  match e.Next w.store e.Record with
  | Except.error err => Res.ret (some err) w []
  | Except.ok (st, r) =>
    publishEvent env kind r.collection.Name (Payload.record r)
      (if Record.GetString env.formatFloat r "eventSource" = ""
        then "pocketbase" else Record.GetString env.formatFloat r "eventSource")
      { w with store := st }

/-- The handlers bound on the application. -/
structure Hooks (σ β : Type) where
  OnRecordCreate : RecordEvent σ → M (World σ β) (Option GoError)
  OnRecordUpdate : RecordEvent σ → M (World σ β) (Option GoError)
  OnRecordDelete : RecordEvent σ → M (World σ β) (Option GoError)

/-- The method `Register` of plugins.go: the three handlers it binds. -/
def Register (env : Env σ β) : Hooks σ β where
  OnRecordCreate := recordHook env "create"
  OnRecordUpdate := recordHook env "update"
  OnRecordDelete := recordHook env "delete"

/-! ## The store operations the reconciler calls -/

/-- Modelled from the spec: `core.NewRecord(collection)`, a record not yet
persisted. -/
def NewRecord (env : Env σ β) (c : Collection) : Record :=
  { collection := c, isNew := true, data := env.newRecordData c }

/-- Modelled from the spec: `app.Save(record)` of the store collaborator
(section 6, `save` and `onMutation`): a new record runs the create hook, a
persisted one the update hook, with the commit as `e.Next()`.  The hooks are
the ones `Register` bound, as in main.go. -/
def Save (env : Env σ β) (r : Record) : M (World σ β) (Option GoError) := do
  emit (Call.save r)
  if r.isNew then (Register env).OnRecordCreate { Record := r, Next := env.commitSave }
  else (Register env).OnRecordUpdate { Record := r, Next := env.commitSave }

/-- Modelled from the spec: `app.Delete(record)`: runs the delete hook with
the commit as `e.Next()`. -/
def Delete (env : Env σ β) (r : Record) : M (World σ β) (Option GoError) := do
  emit (Call.delete r)
  (Register env).OnRecordDelete { Record := r, Next := env.commitDelete }

/-- Modelled from the spec: `app.FindCollectionByNameOrId(name)`. -/
def FindCollectionByNameOrId (env : Env σ β) (name : String) :
    M (World σ β) (Except GoError Collection) := fun w =>
  Res.ret (env.findCollectionByNameOrId w.store name) w [Call.findCollectionByNameOrId name]

/-- Modelled from the spec: `app.FindRecordById(collection, id)`; a record
that was found is a persisted one. -/
def FindRecordById (env : Env σ β) (collection id : String) :
    M (World σ β) (Except GoError Record) := fun w =>
  Res.ret
    (match env.findRecordById w.store collection id with
      | Except.ok r => Except.ok { r with isNew := false }
      | Except.error err => Except.error err)
    w [Call.findRecordById collection id]

/-! ## Inbound side: the reconciler -/

/-- The loop of `createRecord` over the envelope map: every entry whose key is
not server-managed is written on the record. -/
def copyFields (record : Fields) (newRecord : Record) : Record :=
  record.foldl
    (fun r kv =>
      if kv.1 ≠ "id" ∧ kv.1 ≠ "created" ∧ kv.1 ≠ "updated" ∧
          kv.1 ≠ "collectionId" ∧ kv.1 ≠ "collectionName"
      then r.Set kv.1 kv.2 else r)
    newRecord

/-- The loop of `updateRecord` over the envelope map: every entry is written
on the record. -/
def overwriteFields (data : Fields) (existingRecord : Record) : Record :=
  data.foldl (fun r kv => r.Set kv.1 kv.2) existingRecord

/-- The method `createRecord` of plugins.go. -/
def createRecord (env : Env σ β) (collection : String) (record : Fields) (ctx : Context) :
    M (World σ β) Unit := do
  match ← FindCollectionByNameOrId env collection with
  | Except.error err => emit (Call.log "error" "Collection not found:" [err])
  | Except.ok c =>
    let newRecord := copyFields record (NewRecord env c)
    let source ← assertString (ctx.Value "eventSource")
    let newRecord := newRecord.Set "eventSource" (Any.string source)
    match ← Save env newRecord with
    | some err => emit (Call.log "error" "Failed to save record:" [err])
    | none =>
      emit (Call.log "info" "Created record from Redis event:"
        ["collection", collection, "source", source])

/-- The method `updateRecord` of plugins.go. -/
def updateRecord (env : Env σ β) (collection : String) (record : Fields) (ctx : Context) :
    M (World σ β) Unit := do
  let id ← assertString ((record.get "id").getD Any.nil)
  let data := record
  match ← FindRecordById env collection id with
  | Except.error err => emit (Call.log "error" "Record not found:" [err])
  | Except.ok existingRecord =>
    let existingRecord := overwriteFields data existingRecord
    let source ← assertString (ctx.Value "eventSource")
    let existingRecord := existingRecord.Set "eventSource" (Any.string source)
    match ← Save env existingRecord with
    | some err => emit (Call.log "error" "Failed to save record:" [err])
    | none =>
      emit (Call.log "info" "Updated record from Redis event:"
        ["collection", collection, "id", id, "source", source])

/-- The method `deleteRecord` of plugins.go. -/
def deleteRecord (env : Env σ β) (collection : String) (record : Fields) (ctx : Context) :
    M (World σ β) Unit := do
  let id ← assertString ((record.get "id").getD Any.nil)
  match ← FindRecordById env collection id with
  | Except.error err => emit (Call.log "error" "Record not found:" [err])
  | Except.ok existingRecord =>
    match ← Delete env existingRecord with
    | some err => emit (Call.log "error" "Failed to delete record:" [err])
    | none =>
      let source ← assertString (ctx.Value "eventSource")
      emit (Call.log "info" "Deleted record from Redis event:"
        ["collection", collection, "id", id, "source", source])

/-- The method `processEvent` of plugins.go.  The first trace entry marks the
invocation itself.  The type assertion on `e.Record` is an argument of the
call, so it is evaluated before the callee starts. -/
def processEvent (env : Env σ β) (e : event) : M (World σ β) Unit := do
  emit (Call.processEvent e)
  let ctx := Context.WithValue Context.Background "eventSource" (Any.string e.Source)
  if e.Event = "create" then do
    let record ← assertMap e.Record
    createRecord env e.Collection record ctx
  else if e.Event = "update" then do
    let record ← assertMap e.Record
    updateRecord env e.Collection record ctx
  else if e.Event = "delete" then do
    let record ← assertMap e.Record
    deleteRecord env e.Collection record ctx
  else pure ()

/-- One iteration of the `for msg := range sub.Channel()` loop of
`ListenAndProcessEvents`. -/
def loopBody (env : Env σ β) (payload : String) : M (World σ β) Unit := do
  emit (Call.log "debug" "Received message:" [payload])
  match env.jsonUnmarshal payload with
  | Except.error err => emit (Call.log "error" "Failed to unmarshal event:" [err])
  | Except.ok e =>
    if e.Source = "pocketbase" then
      emit (Call.log "debug" "Skipping pocketbase sourced event" [])
    else processEvent env e

/-- The loop of `ListenAndProcessEvents` run over the payloads the channel
delivers, in delivery order.  A panic in the goroutine ends the process, so
the remaining payloads are not looked at. -/
def drain (env : Env σ β) : List String → M (World σ β) Unit
  | [] => pure ()
  | payload :: rest => do
    loopBody env payload
    drain env rest

/-- The method `ListenAndProcessEvents` of plugins.go, with the goroutine run
on the payloads `msgs` delivered by the subscription. -/
def ListenAndProcessEvents (env : Env σ β) (msgs : List String) : M (World σ β) Unit := do
  emit (Call.subscribe "pocketbase:events:receiver")
  emit (Call.log "info" "Started listening for Redis events" [])
  drain env msgs

end Code

/-! ## Observations on traces -/

/-- The records handed to `app.Save`, in call order. -/
def savedRecords : List Call → List Record
  | [] => []
  | Call.save r :: rest => r :: savedRecords rest
  | _ :: rest => savedRecords rest

/-- The records handed to `app.Delete`, in call order. -/
def deletedRecords : List Call → List Record
  | [] => []
  | Call.delete r :: rest => r :: deletedRecords rest
  | _ :: rest => deletedRecords rest

/-- The bus writes, as channel and payload, in call order. -/
def published : List Call → List (String × String)
  | [] => []
  | Call.publish channel payload :: rest => (channel, payload) :: published rest
  | _ :: rest => published rest

/-- The invocations of `processEvent`, in call order. -/
def dispatched : List Call → List event
  | [] => []
  | Call.processEvent e :: rest => e :: dispatched rest
  | _ :: rest => dispatched rest

/-- Log lines are the only calls that are not collaborator or reconciler
calls. -/
def Call.isLog : Call → Bool
  | Call.log _ _ _ => true
  | _ => false

/-- Whether `json.Unmarshal` accepts a payload. -/
def decodes {σ β : Type} (env : Env σ β) (payload : String) : Bool :=
  match env.jsonUnmarshal payload with
  | Except.ok _ => true
  | Except.error _ => false

/-- The envelopes a payload sequence is expected to bring to the reconciler:
the payloads `json.Unmarshal` accepts, decoded, in delivery order, without
those whose source is `"pocketbase"`.  Undecodable payloads contribute
nothing. -/
def inbound {σ β : Type} (env : Env σ β) : List String → List event
  | [] => []
  | payload :: rest =>
    match env.jsonUnmarshal payload with
    | Except.ok e => if e.Source = "pocketbase" then inbound env rest else e :: inbound env rest
    | Except.error _ => inbound env rest

/-- The reconciler run on a list of envelopes, one after the other; a panic
ends the run. -/
def applyAll {σ β : Type} (env : Env σ β) : List event → M (World σ β) Unit
  | [] => pure ()
  | e :: rest => do
    processEvent env e
    applyAll env rest

/-- The success line of `createRecord` or `updateRecord` is in the trace: the
line is written exactly when `app.Save` returned `nil`. -/
def savedOK (tr : List Call) : Prop :=
  ∃ args, Call.log "info" "Created record from Redis event:" args ∈ tr ∨
    Call.log "info" "Updated record from Redis event:" args ∈ tr

/-- The envelope the publisher is expected to emit for a committed mutation
of kind `kind` on record `r`: the kind, the name of the collection of the
record, the record, and as source the `eventSource` tag of the record, or
`"pocketbase"` when the tag is empty. -/
def outEnvelope {σ β : Type} (env : Env σ β) (kind : String) (r : Record) : event :=
  { Event := kind, Collection := r.collection.Name, Record := Payload.record r,
    Source :=
      if Record.GetString env.formatFloat r "eventSource" = "" then "pocketbase"
      else Record.GetString env.formatFloat r "eventSource" }

/-- The handlers `Register` binds, each with the mutation kind of the hook it
is bound on. -/
def registered {σ β : Type} (env : Env σ β) :
    List (String × (RecordEvent σ → M (World σ β) (Option GoError))) :=
  [("create", (Register env).OnRecordCreate), ("update", (Register env).OnRecordUpdate),
    ("delete", (Register env).OnRecordDelete)]

/-- The five keys `createRecord` leaves to the store. -/
def serverManaged : List String := ["id", "created", "updated", "collectionId", "collectionName"]

/-! ## A small concrete environment

An in-memory store with one collection `notes`, a bus that remembers what was
published, and stand-ins for `encoding/json`.  The general theorems hold for
every environment; this one is used to run the code on concrete inputs. -/

namespace Demo

/-- The persisted records, oldest first. -/
abbrev Store := List Record

/-- The messages published so far, oldest first. -/
abbrev Bus := List (String × String)

/-- The only collection of the demo store. -/
def notes : Collection := { Id := "c_notes", Name := "notes" }

/-- Whether the `id` field of a record is the given string. -/
def hasId (id : String) (r : Record) : Bool :=
  match r.data.get "id" with
  | some (Any.string s) => decide (s = id)
  | _ => false

/-- Collection look-up by name or id. -/
def findCollectionByNameOrId (_st : Store) (name : String) : Except GoError Collection :=
  if name = "notes" ∨ name = "c_notes" then Except.ok notes
  else Except.error "sql: no rows in result set"

/-- Record look-up by collection and id. -/
def findRecordById (st : Store) (collection id : String) : Except GoError Record :=
  match st.find? (fun r => decide (r.collection.Name = collection) && hasId id r) with
  | some r => Except.ok r
  | none => Except.error "sql: no rows in result set"

/-- The id the store gives its next record: `r` followed by one `i` per
record already stored. -/
def freshId (st : Store) : String := String.mk ('r' :: List.replicate st.length 'i')

/-- Commit of a save: a new record gets a fresh id and is appended, a
persisted one replaces the stored record with the same id. -/
def commitSave (st : Store) (r : Record) : Except GoError (Store × Record) :=
  if r.isNew then
    Except.ok (st ++ [{ r.Set "id" (Any.string (freshId st)) with isNew := false }],
      { r.Set "id" (Any.string (freshId st)) with isNew := false })
  else
    match r.data.get "id" with
    | some (Any.string id) => Except.ok (st.map (fun x => if hasId id x then r else x), r)
    | _ => Except.error "validation failed: id"

/-- Commit of a delete: the stored record with the same id is removed. -/
def commitDelete (st : Store) (r : Record) : Except GoError (Store × Record) :=
  match r.data.get "id" with
  | some (Any.string id) => Except.ok (st.filter (fun x => !hasId id x), r)
  | _ => Except.error "validation failed: id"

/-- Whether a `float64` bit pattern is a finite number (exponent not all
ones); `json.Marshal` rejects the others. -/
def finite (bits : Nat) : Bool := decide ((bits / 2 ^ 52) % 2048 ≠ 2047)

/-- Whether a field holds a number `json.Marshal` rejects. -/
def unsupported : String × Any → Bool
  | (_, Any.float64 bits) => !finite bits
  | _ => false

/-- A stand-in for `json.Marshal` on an envelope: it fails with the
`encoding/json` error on a record that holds a NaN or an infinity, and
otherwise renders kind, collection and source. -/
def jsonMarshal (e : event) : Except GoError String :=
  match e.Record with
  | Payload.record r =>
    if r.data.any unsupported then Except.error "json: unsupported value: NaN"
    else Except.ok (e.Event ++ " " ++ e.Collection ++ " " ++ e.Source)
  | Payload.any _ => Except.ok (e.Event ++ " " ++ e.Collection ++ " " ++ e.Source)

/-- Inbound message: create of a note, from `siteB`. -/
def msgCreate : String :=
  "\x7b\"event\":\"create\",\"collection\":\"notes\",\"record\":\x7b\"title\":\"hi\"\x7d,\"source\":\"siteB\"\x7d"

/-- Inbound message: the same create without a `source` member. -/
def msgCreateNoSource : String :=
  "\x7b\"event\":\"create\",\"collection\":\"notes\",\"record\":\x7b\"title\":\"hi\"\x7d\x7d"

/-- Inbound message: create whose record carries its own `eventSource`. -/
def msgCreateTagged : String :=
  "\x7b\"event\":\"create\",\"collection\":\"notes\",\"record\":\x7b\"title\":\"hi\",\"eventSource\":\"siteA\"\x7d,\"source\":\"siteB\"\x7d"

/-- Inbound message: update of record `r` setting the title only. -/
def msgUpdate : String :=
  "\x7b\"event\":\"update\",\"collection\":\"notes\",\"record\":\x7b\"id\":\"r\",\"title\":\"new\"\x7d,\"source\":\"siteB\"\x7d"

/-- Inbound message: update of record `r` whose record carries its own
`eventSource`. -/
def msgUpdateTagged : String :=
  "\x7b\"event\":\"update\",\"collection\":\"notes\",\"record\":\x7b\"id\":\"r\",\"eventSource\":\"siteA\"\x7d,\"source\":\"siteB\"\x7d"

/-- Inbound message: update whose record has no `id`. -/
def msgUpdateNoId : String :=
  "\x7b\"event\":\"update\",\"collection\":\"notes\",\"record\":\x7b\"title\":\"new\"\x7d,\"source\":\"siteB\"\x7d"

/-- Inbound message: update of an id that is not in the store. -/
def msgUpdateUnknown : String :=
  "\x7b\"event\":\"update\",\"collection\":\"notes\",\"record\":\x7b\"id\":\"zzz\"\x7d,\"source\":\"siteB\"\x7d"

/-- Inbound message: the echo example of the spec, source `pocketbase`. -/
def msgEcho : String :=
  "\x7b\"event\":\"update\",\"collection\":\"notes\",\"record\":\x7b\"id\":\"n1\"\x7d,\"source\":\"pocketbase\"\x7d"

/-- Inbound message: bytes that are not JSON. -/
def msgGarbage : String := "garbage bytes"

/-- Build a decoded envelope. -/
def envelope (kind : String) (record : Fields) (source : String) : event :=
  { Event := kind, Collection := "notes", Record := Payload.any (Any.map record),
    Source := source }

/-- A stand-in for `json.Unmarshal` into an `event`: it decodes the messages
above the way `encoding/json` does (a missing `source` member leaves the
field empty) and rejects every other payload. -/
def jsonUnmarshal (payload : String) : Except GoError event :=
  if payload = msgCreate then
    Except.ok (envelope "create" [("title", Any.string "hi")] "siteB")
  else if payload = msgCreateNoSource then
    Except.ok (envelope "create" [("title", Any.string "hi")] "")
  else if payload = msgCreateTagged then
    Except.ok (envelope "create"
      [("title", Any.string "hi"), ("eventSource", Any.string "siteA")] "siteB")
  else if payload = msgUpdate then
    Except.ok (envelope "update" [("id", Any.string "r"), ("title", Any.string "new")] "siteB")
  else if payload = msgUpdateTagged then
    Except.ok (envelope "update"
      [("id", Any.string "r"), ("eventSource", Any.string "siteA")] "siteB")
  else if payload = msgUpdateNoId then
    Except.ok (envelope "update" [("title", Any.string "new")] "siteB")
  else if payload = msgUpdateUnknown then
    Except.ok (envelope "update" [("id", Any.string "zzz")] "siteB")
  else if payload = msgEcho then
    Except.ok (envelope "update" [("id", Any.string "n1")] "pocketbase")
  else Except.error "invalid character"

/-- The demo environment; its bus accepts every message. -/
def env : Env Store Bus where
  findCollectionByNameOrId := findCollectionByNameOrId
  findRecordById := findRecordById
  newRecordData := fun _ => []
  commitSave := commitSave
  commitDelete := commitDelete
  jsonMarshal := jsonMarshal
  jsonUnmarshal := jsonUnmarshal
  busPublish := fun bus channel payload => (bus ++ [(channel, payload)], none)
  formatFloat := fun _ => "0"

/-- The demo environment with a bus that refuses every write. -/
def envBusDown : Env Store Bus :=
  { env with busPublish := fun bus _ _ => (bus, some "dial tcp: connection refused") }

/-- An empty store and a bus on which nothing was published. -/
def w0 : World Store Bus := { store := [], bus := [] }

/-- A persisted note with id `r`, a title and a body. -/
def note : Record :=
  { collection := notes, isNew := false,
    data := [("id", Any.string "r"), ("title", Any.string "old"), ("body", Any.string "text")] }

/-- A store that holds the note. -/
def w1 : World Store Bus := { store := [note], bus := [] }

/-- A locally built note with default provenance. -/
def localNote : Record :=
  { collection := notes, isNew := true, data := [("title", Any.string "hi")] }

/-- A locally built note that holds a NaN (exponent bits all ones). -/
def nanNote : Record :=
  { collection := notes, isNew := true, data := [("score", Any.float64 (2047 * 2 ^ 52 + 1))] }

end Demo

/-! ## Running the code: basic equations -/

section Run

variable {S α γ : Type}

@[simp] theorem run_pure (a : α) (s : S) : (pure a : M S α) s = Res.ret a s [] := rfl

@[simp] theorem run_Mpure (a : α) (s : S) : (M.pure a : M S α) s = Res.ret a s [] := rfl

@[simp] theorem run_bind (m : M S α) (f : α → M S γ) (s : S) :
    (m >>= f) s = (m s).andThen f := rfl

@[simp] theorem andThen_ret (a : α) (s : S) (tr : List Call) (f : α → S → Res S γ) :
    (Res.ret a s tr).andThen f = (f a s).prepend tr := rfl

@[simp] theorem andThen_panic (msg : String) (s : S) (tr : List Call) (f : α → S → Res S γ) :
    (Res.panic msg s tr : Res S α).andThen f = Res.panic msg s tr := rfl

@[simp] theorem run_emit (c : Call) (s : S) : (emit c : M S Unit) s = Res.ret () s [c] := rfl

@[simp] theorem run_goPanic (msg : String) (s : S) :
    (goPanic msg : M S α) s = Res.panic msg s [] := rfl

@[simp] theorem prepend_ret (tr0 tr : List Call) (a : α) (s : S) :
    (Res.ret a s tr : Res S α).prepend tr0 = Res.ret a s (tr0 ++ tr) := rfl

@[simp] theorem prepend_panic (tr0 tr : List Call) (msg : String) (s : S) :
    (Res.panic msg s tr : Res S α).prepend tr0 = Res.panic msg s (tr0 ++ tr) := rfl

@[simp] theorem prepend_nil (r : Res S α) : r.prepend [] = r := by
  cases r <;> rfl

@[simp] theorem prepend_prepend (tr0 tr1 : List Call) (r : Res S α) :
    (r.prepend tr1).prepend tr0 = r.prepend (tr0 ++ tr1) := by
  cases r <;> simp [Res.prepend]

@[simp] theorem world_prepend (tr0 : List Call) (r : Res S α) :
    (r.prepend tr0).world = r.world := by
  cases r <;> rfl

@[simp] theorem panicked_prepend (tr0 : List Call) (r : Res S α) :
    (r.prepend tr0).panicked = r.panicked := by
  cases r <;> rfl

@[simp] theorem trace_prepend (tr0 : List Call) (r : Res S α) :
    (r.prepend tr0).trace = tr0 ++ r.trace := by
  cases r <;> rfl

end Run

/-! ## Field maps and the two copy loops -/

section FieldLemmas

theorem Fields.get_set (m : Fields) (k : String) (v : Any) (key : String) :
    (Fields.set m k v).get key = if k = key then some v else m.get key := by
  induction m with
  | nil => simp [Fields.set, Fields.get]
  | cons kv rest ih =>
    obtain ⟨k0, v0⟩ := kv
    by_cases h0 : k0 = k
    · subst h0
      by_cases h1 : k0 = key <;> simp [Fields.set, Fields.get, h1]
    · by_cases h1 : k0 = key
      · subst h1
        have h2 : ¬ k = k0 := fun h => h0 h.symm
        simp [Fields.set, Fields.get, h0, h2]
      · simp [Fields.set, Fields.get, h0, h1, ih]

theorem Fields.get_eq_none_of_not_mem (m : Fields) (key : String) (h : key ∉ m.keys) :
    m.get key = none := by
  induction m with
  | nil => rfl
  | cons kv rest ih =>
    obtain ⟨k0, v0⟩ := kv
    simp only [Fields.keys, List.map_cons, List.mem_cons, not_or] at h
    have hne : ¬ k0 = key := fun hk => h.1 hk.symm
    simp only [Fields.get, hne, if_false]
    exact ih h.2

/-- The copy loops only change field values. -/
theorem foldl_write_frame (P : String → Prop) [DecidablePred P]
    (f : Record → String × Any → Record)
    (hf : ∀ r kv, f r kv = if P kv.1 then r.Set kv.1 kv.2 else r)
    (m : Fields) (r : Record) :
    (m.foldl f r).isNew = r.isNew ∧ (m.foldl f r).collection = r.collection := by
  induction m generalizing r with
  | nil => exact ⟨rfl, rfl⟩
  | cons kv rest ih =>
    simp only [List.foldl_cons]
    rw [(ih (f r kv)).1, (ih (f r kv)).2, hf]
    by_cases hP0 : P kv.1 <;> simp [hP0, Record.Set]

/-- A loop that writes the entries of a Go map whose key satisfies `P` on a
record: afterwards a key of the map that satisfies `P` holds the map value,
every other field is as before, and only the field values changed. -/
theorem foldl_write (P : String → Prop) [DecidablePred P]
    (f : Record → String × Any → Record)
    (hf : ∀ r kv, f r kv = if P kv.1 then r.Set kv.1 kv.2 else r)
    (m : Fields) (hnd : m.keys.Nodup) (r : Record) :
    (∀ key, (m.foldl f r).data.get key =
        if P key then
          (match m.get key with
            | some v => some v
            | none => r.data.get key)
        else r.data.get key) ∧
      (m.foldl f r).isNew = r.isNew ∧ (m.foldl f r).collection = r.collection := by
  induction m generalizing r with
  | nil =>
    refine ⟨?_, rfl, rfl⟩
    intro key
    simp [Fields.get]
  | cons kv rest ih =>
    obtain ⟨k0, v0⟩ := kv
    simp only [Fields.keys, List.map_cons, List.nodup_cons] at hnd
    obtain ⟨hk0, hrest⟩ := hnd
    have ih1 := ih hrest (f r (k0, v0))
    simp only [List.foldl_cons]
    refine ⟨?_, ?_, ?_⟩
    · intro key
      rw [ih1.1 key, hf]
      by_cases hP : P key
      · by_cases hk : k0 = key
        · subst hk
          have hn : Fields.get rest k0 = none := Fields.get_eq_none_of_not_mem rest k0 hk0
          simp [hP, hn, Fields.get, Record.Set, Fields.get_set]
        · by_cases hP0 : P k0
          · simp [hP, hP0, hk, Fields.get, Record.Set, Fields.get_set]
          · simp [hP, hP0, hk, Fields.get]
      · by_cases hP0 : P k0
        · have hk : ¬ k0 = key := fun h => hP (h ▸ hP0)
          simp [hP, hP0, hk, Record.Set, Fields.get_set]
        · simp [hP, hP0]
    · rw [ih1.2.1, hf]
      by_cases hP0 : P k0 <;> simp [hP0, Record.Set]
    · rw [ih1.2.2, hf]
      by_cases hP0 : P k0 <;> simp [hP0, Record.Set]

end FieldLemmas

section Proofs

variable {σ β : Type}

/-- C1: an inbound message that decodes to an envelope whose source is
`"pocketbase"` is skipped, whatever its event kind, collection and record.
The iteration of the subscriber loop returns normally in the world it started
in, having made two calls only, the two debug log lines; in particular
`processEvent` is not invoked. -/
theorem loopBody_default_source_skipped (env : Env σ β) (w : World σ β) (payload : String)
    (e : event) (hdec : env.jsonUnmarshal payload = Except.ok e)
    (hsrc : e.Source = "pocketbase") :
    loopBody env payload w =
        Res.ret () w [Call.log "debug" "Received message:" [payload],
          Call.log "debug" "Skipping pocketbase sourced event" []] ∧
      (∀ e1, Call.processEvent e1 ∉ (loopBody env payload w).trace) ∧
      (loopBody env payload w).world = w := by
  have h : loopBody env payload w =
        Res.ret () w [Call.log "debug" "Received message:" [payload],
          Call.log "debug" "Skipping pocketbase sourced event" []] := by
    simp [loopBody, hdec, hsrc]
  refine ⟨h, ?_, ?_⟩
  · intro e1
    rw [h]
    simp [Res.trace]
  · rw [h]; rfl

/-- Witness for C1: the echo example of the spec. -/
theorem loopBody_default_source_skipped_witness :
    Demo.env.jsonUnmarshal Demo.msgEcho =
        Except.ok (Demo.envelope "update" [("id", Any.string "n1")] "pocketbase") ∧
      loopBody Demo.env Demo.msgEcho Demo.w1 =
        Res.ret () Demo.w1 [Call.log "debug" "Received message:" [Demo.msgEcho],
          Call.log "debug" "Skipping pocketbase sourced event" []] :=
  ⟨rfl, (loopBody_default_source_skipped Demo.env Demo.w1 Demo.msgEcho
    (Demo.envelope "update" [("id", Any.string "n1")] "pocketbase") rfl rfl).1⟩

end Proofs


section Loop

variable {σ β : Type}

theorem loopBody_undecodable (env : Env σ β) (payload : String) (w : World σ β)
    (h : decodes env payload = false) :
    ∃ err, loopBody env payload w =
      Res.ret () w [Call.log "debug" "Received message:" [payload],
        Call.log "error" "Failed to unmarshal event:" [err]] := by
  unfold decodes at h
  cases hdec : env.jsonUnmarshal payload with
  | error err => exact ⟨err, by simp [loopBody, hdec]⟩
  | ok e => simp [hdec] at h

theorem drain_cons (env : Env σ β) (payload : String) (rest : List String) (w : World σ β) :
    drain env (payload :: rest) w =
      (loopBody env payload w).andThen (fun _ w1 => drain env rest w1) := by
  simp [drain]

/-- The loop on a payload sequence and on the sequence without the payloads
`json.Unmarshal` rejects: same final world, same panic status, same calls
apart from log lines. -/
theorem drain_filter (env : Env σ β) (msgs : List String) (w : World σ β) :
    (drain env msgs w).world = (drain env (msgs.filter (decodes env)) w).world ∧
      (drain env msgs w).panicked = (drain env (msgs.filter (decodes env)) w).panicked ∧
      (drain env msgs w).trace.filter (fun c => !c.isLog) =
        (drain env (msgs.filter (decodes env)) w).trace.filter (fun c => !c.isLog) := by
  induction msgs generalizing w with
  | nil => exact ⟨rfl, rfl, rfl⟩
  | cons payload rest ih =>
    cases hd : decodes env payload with
    | false =>
      obtain ⟨err, hbody⟩ := loopBody_undecodable env payload w hd
      have hstep : drain env (payload :: rest) w =
          (drain env rest w).prepend [Call.log "debug" "Received message:" [payload],
            Call.log "error" "Failed to unmarshal event:" [err]] := by
        rw [drain_cons, hbody, andThen_ret]
      rw [List.filter_cons_of_neg (by simp [hd]), hstep]
      obtain ⟨h1, h2, h3⟩ := ih w
      refine ⟨?_, ?_, ?_⟩
      · simpa using h1
      · simpa using h2
      · simpa [Call.isLog] using h3
    | true =>
      rw [List.filter_cons_of_pos (by simp [hd]), drain_cons, drain_cons]
      cases hbody : loopBody env payload w with
      | panic msg w1 tr1 => exact ⟨rfl, rfl, rfl⟩
      | ret a w1 tr1 =>
        obtain ⟨h1, h2, h3⟩ := ih w1
        simp only [andThen_ret]
        refine ⟨?_, ?_, ?_⟩
        · simpa using h1
        · simpa using h2
        · simp [h3]

theorem ListenAndProcessEvents_run (env : Env σ β) (msgs : List String) (w : World σ β) :
    ListenAndProcessEvents env msgs w =
      (drain env msgs w).prepend [Call.subscribe "pocketbase:events:receiver",
        Call.log "info" "Started listening for Redis events" []] := by
  simp [ListenAndProcessEvents]

theorem andThen_prepend {S α γ : Type} (tr : List Call) (r : Res S α)
    (f : α → S → Res S γ) : (r.prepend tr).andThen f = (r.andThen f).prepend tr := by
  cases r with
  | ret a s tr1 => simp only [prepend_ret, andThen_ret, prepend_prepend]
  | panic msg s tr1 => rfl

theorem applyAll_cons (env : Env σ β) (e : event) (rest : List event) (w : World σ β) :
    applyAll env (e :: rest) w =
      (processEvent env e w).andThen (fun _ w1 => applyAll env rest w1) := by
  simp [applyAll]

theorem applyAll_single (env : Env σ β) (e : event) (w : World σ β) :
    (applyAll env [e] w).world = (processEvent env e w).world ∧
      (applyAll env [e] w).panicked = (processEvent env e w).panicked ∧
      (applyAll env [e] w).trace = (processEvent env e w).trace := by
  rw [applyAll_cons]
  cases processEvent env e w with
  | ret a w1 tr => simp [applyAll, Res.world, Res.panicked, Res.trace]
  | panic msg w1 tr => exact ⟨rfl, rfl, rfl⟩

theorem inbound_undecodable (env : Env σ β) (msgs : List String)
    (h : ∀ g, g ∈ msgs → decodes env g = false) (tail : List String) :
    inbound env (msgs ++ tail) = inbound env tail := by
  induction msgs with
  | nil => rfl
  | cons g rest ih =>
    have hg := h g (List.mem_cons_self _ _)
    unfold decodes at hg
    cases hdec : env.jsonUnmarshal g with
    | ok e => simp [hdec] at hg
    | error err =>
      simp only [List.cons_append, inbound, hdec]
      exact ih (fun x hx => h x (List.mem_cons_of_mem _ hx))

/-- The loop is the reconciler run on the decodable, non-default envelopes of
the sequence, in order: same final world, same panic status, same calls
apart from log lines. -/
theorem drain_refines (env : Env σ β) (msgs : List String) (w : World σ β) :
    (drain env msgs w).world = (applyAll env (inbound env msgs) w).world ∧
      (drain env msgs w).panicked = (applyAll env (inbound env msgs) w).panicked ∧
      (drain env msgs w).trace.filter (fun c => !c.isLog) =
        (applyAll env (inbound env msgs) w).trace.filter (fun c => !c.isLog) := by
  induction msgs generalizing w with
  | nil => exact ⟨rfl, rfl, rfl⟩
  | cons payload rest ih =>
    rw [drain_cons]
    cases hdec : env.jsonUnmarshal payload with
    | error err =>
      have hbody : loopBody env payload w =
          Res.ret () w [Call.log "debug" "Received message:" [payload],
            Call.log "error" "Failed to unmarshal event:" [err]] := by
        simp [loopBody, hdec]
      obtain ⟨h1, h2, h3⟩ := ih w
      simp only [inbound, hdec]
      rw [hbody, andThen_ret]
      refine ⟨?_, ?_, ?_⟩
      · simpa using h1
      · simpa using h2
      · rw [trace_prepend, List.filter_append, ← h3]
        rfl
    | ok e =>
      by_cases hsrc : e.Source = "pocketbase"
      · have hbody : loopBody env payload w =
            Res.ret () w [Call.log "debug" "Received message:" [payload],
              Call.log "debug" "Skipping pocketbase sourced event" []] := by
          simp [loopBody, hdec, hsrc]
        obtain ⟨h1, h2, h3⟩ := ih w
        simp only [inbound, hdec, hsrc, if_true]
        rw [hbody, andThen_ret]
        refine ⟨?_, ?_, ?_⟩
        · simpa using h1
        · simpa using h2
        · rw [trace_prepend, List.filter_append, ← h3]
          rfl
      · have hbody : loopBody env payload w =
            (processEvent env e w).prepend
              [Call.log "debug" "Received message:" [payload]] := by
          simp [loopBody, hdec, hsrc]
        simp only [inbound, hdec, hsrc, if_false]
        rw [hbody, andThen_prepend, applyAll_cons]
        cases processEvent env e w with
        | panic msg w1 tr => exact ⟨rfl, rfl, rfl⟩
        | ret a w1 tr =>
          obtain ⟨h1, h2, h3⟩ := ih w1
          simp only [andThen_ret, prepend_prepend]
          refine ⟨?_, ?_, ?_⟩
          · simpa using h1
          · simpa using h2
          · rw [trace_prepend, trace_prepend, List.filter_append, List.filter_append,
              List.filter_append, h3]
            rfl

/-- C10: payloads that `json.Unmarshal` rejects are skipped without touching
the store or the bus and without ending the loop.

For every sequence `msgs` of delivered payloads:
* `ListenAndProcessEvents` on `msgs` and on `msgs` with the undecodable
  payloads removed end in the same world, agree on whether the process
  panicked, and make the same reconciler, store and bus calls;
* `ListenAndProcessEvents` on `msgs` is the reconciler `processEvent` run, in
  delivery order, on exactly the envelopes of `msgs` that decode and whose
  source is not `"pocketbase"`: same world, same panic status, and the same
  calls after the subscription, log lines apart;
* when every payload of `msgs` is undecodable the loop reads them all and
  returns normally in the world it started in;
* when every payload of `msgs` is undecodable and a payload `p` that decodes
  to an envelope `e` with a non-default source follows, the envelope is
  applied: the loop on `msgs ++ [p]` ends in the world `processEvent` on `e`
  ends in from the start world, with the same panic status, and its calls
  after the subscription are those of `processEvent` on `e`, log lines
  apart. -/
theorem listen_skips_undecodable (env : Env σ β) (msgs : List String) (w : World σ β) :
    ((ListenAndProcessEvents env msgs w).world =
        (ListenAndProcessEvents env (msgs.filter (decodes env)) w).world ∧
      (ListenAndProcessEvents env msgs w).panicked =
        (ListenAndProcessEvents env (msgs.filter (decodes env)) w).panicked ∧
      (ListenAndProcessEvents env msgs w).trace.filter (fun c => !c.isLog) =
        (ListenAndProcessEvents env (msgs.filter (decodes env)) w).trace.filter
          (fun c => !c.isLog)) ∧
    ((ListenAndProcessEvents env msgs w).world = (applyAll env (inbound env msgs) w).world ∧
      (ListenAndProcessEvents env msgs w).panicked =
        (applyAll env (inbound env msgs) w).panicked ∧
      (ListenAndProcessEvents env msgs w).trace.filter (fun c => !c.isLog) =
        Call.subscribe "pocketbase:events:receiver" ::
          (applyAll env (inbound env msgs) w).trace.filter (fun c => !c.isLog)) ∧
    ((∀ g, g ∈ msgs → decodes env g = false) →
      (ListenAndProcessEvents env msgs w).world = w ∧
        (ListenAndProcessEvents env msgs w).panicked = false ∧
        (ListenAndProcessEvents env msgs w).trace.filter (fun c => !c.isLog) =
          [Call.subscribe "pocketbase:events:receiver"]) ∧
    (∀ p e, (∀ g, g ∈ msgs → decodes env g = false) →
      env.jsonUnmarshal p = Except.ok e → e.Source ≠ "pocketbase" →
      (ListenAndProcessEvents env (msgs ++ [p]) w).world = (processEvent env e w).world ∧
        (ListenAndProcessEvents env (msgs ++ [p]) w).panicked =
          (processEvent env e w).panicked ∧
        (ListenAndProcessEvents env (msgs ++ [p]) w).trace.filter (fun c => !c.isLog) =
          Call.subscribe "pocketbase:events:receiver" ::
            (processEvent env e w).trace.filter (fun c => !c.isLog)) := by
  have hrun : ∀ l : List String,
      (ListenAndProcessEvents env l w).world = (applyAll env (inbound env l) w).world ∧
      (ListenAndProcessEvents env l w).panicked = (applyAll env (inbound env l) w).panicked ∧
      (ListenAndProcessEvents env l w).trace.filter (fun c => !c.isLog) =
        Call.subscribe "pocketbase:events:receiver" ::
          (applyAll env (inbound env l) w).trace.filter (fun c => !c.isLog) := by
    intro l
    obtain ⟨h1, h2, h3⟩ := drain_refines env l w
    rw [ListenAndProcessEvents_run]
    refine ⟨?_, ?_, ?_⟩
    · simpa using h1
    · simpa using h2
    · rw [trace_prepend, List.filter_append, h3]
      rfl
  refine ⟨?_, hrun msgs, ?_, ?_⟩
  · obtain ⟨h1, h2, h3⟩ := drain_filter env msgs w
    rw [ListenAndProcessEvents_run, ListenAndProcessEvents_run]
    refine ⟨?_, ?_, ?_⟩
    · simpa using h1
    · simpa using h2
    · rw [trace_prepend, trace_prepend, List.filter_append, List.filter_append, h3]
  · intro hall
    have hin : inbound env msgs = [] := by
      have := inbound_undecodable env msgs hall []
      simpa [inbound] using this
    obtain ⟨h1, h2, h3⟩ := hrun msgs
    rw [hin] at h1 h2 h3
    exact ⟨h1, h2, h3⟩
  · intro p e hall hdec hsrc
    have hin : inbound env (msgs ++ [p]) = [e] := by
      rw [inbound_undecodable env msgs hall [p]]
      simp [inbound, hdec, hsrc]
    obtain ⟨h1, h2, h3⟩ := hrun (msgs ++ [p])
    obtain ⟨a1, a2, a3⟩ := applyAll_single env e w
    rw [hin] at h1 h2 h3
    rw [a1] at h1
    rw [a2] at h2
    rw [a3] at h3
    exact ⟨h1, h2, h3⟩

/-- Witness for C10: garbage bytes, then the create message from `siteB`, on
the empty demo store.  The garbage does not decode, the loop does not panic,
and afterwards the store holds the created note and the bus its envelope. -/
theorem listen_skips_undecodable_witness :
    decodes Demo.env Demo.msgGarbage = false ∧
      Demo.env.jsonUnmarshal Demo.msgCreate =
        Except.ok (Demo.envelope "create" [("title", Any.string "hi")] "siteB") ∧
      (ListenAndProcessEvents Demo.env ([Demo.msgGarbage] ++ [Demo.msgCreate]) Demo.w0).world =
        { store := [{ collection := Demo.notes, isNew := false,
                      data := [("title", Any.string "hi"), ("eventSource", Any.string "siteB"),
                        ("id", Any.string "r")] }],
          bus := [("pocketbase:events:publisher", "create notes siteB")] } ∧
      (ListenAndProcessEvents Demo.env ([Demo.msgGarbage] ++ [Demo.msgCreate])
        Demo.w0).panicked = false ∧
      (ListenAndProcessEvents Demo.env [Demo.msgGarbage] Demo.w0).world = Demo.w0 :=
  have h := listen_skips_undecodable Demo.env [Demo.msgGarbage] Demo.w0
  have hall : ∀ g, g ∈ [Demo.msgGarbage] → decodes Demo.env g = false :=
    fun g hg => by rw [List.mem_singleton.1 hg]; rfl
  have hd := h.2.2.2 Demo.msgCreate
    (Demo.envelope "create" [("title", Any.string "hi")] "siteB") hall rfl (by decide)
  ⟨rfl, rfl, hd.1.trans rfl, hd.2.1.trans rfl, (h.2.2.1 hall).1⟩

theorem processEvent_trace_head (env : Env σ β) (e : event) (w : World σ β) :
    ∃ tr, (processEvent env e w).trace = Call.processEvent e :: tr := by
  simp only [processEvent, run_bind, run_emit, andThen_ret, trace_prepend]
  exact ⟨_, rfl⟩

/-- C9, as amended: an inbound message that decodes to an envelope with an
empty source is not dropped.  The subscriber loop hands it to `processEvent`
like any other envelope whose source is not `"pocketbase"`: the iteration is
the debug line followed by the run of `processEvent` on the envelope, whose
invocation is the second entry of the trace. -/
theorem empty_source_is_dispatched (env : Env σ β) (w : World σ β) (payload : String)
    (e : event) (hdec : env.jsonUnmarshal payload = Except.ok e) (hsrc : e.Source = "") :
    loopBody env payload w =
        (processEvent env e w).prepend [Call.log "debug" "Received message:" [payload]] ∧
      ∃ tr, (loopBody env payload w).trace =
        Call.log "debug" "Received message:" [payload] :: Call.processEvent e :: tr := by
  have hne : ¬ e.Source = "pocketbase" := by rw [hsrc]; decide
  have h : loopBody env payload w =
      (processEvent env e w).prepend [Call.log "debug" "Received message:" [payload]] := by
    simp [loopBody, hdec, hne]
  obtain ⟨tr, htr⟩ := processEvent_trace_head env e w
  exact ⟨h, tr, by rw [h, trace_prepend, htr]; rfl⟩

/-- Witness for C9: the create message without a `source` member. -/
theorem empty_source_is_dispatched_witness :
    Demo.env.jsonUnmarshal Demo.msgCreateNoSource =
        Except.ok (Demo.envelope "create" [("title", Any.string "hi")] "") ∧
      loopBody Demo.env Demo.msgCreateNoSource Demo.w0 =
        (processEvent Demo.env (Demo.envelope "create" [("title", Any.string "hi")] "")
          Demo.w0).prepend [Call.log "debug" "Received message:" [Demo.msgCreateNoSource]] :=
  ⟨rfl, (empty_source_is_dispatched Demo.env Demo.w0 Demo.msgCreateNoSource
    (Demo.envelope "create" [("title", Any.string "hi")] "") rfl rfl).1⟩

/-- C9, counterexample: the create message without a `source` member decodes
to an envelope with an empty source; the loop invokes `processEvent` on it and
the store, empty before, holds a new record afterwards. -/
theorem empty_source_counterexample :
    Demo.env.jsonUnmarshal Demo.msgCreateNoSource =
        Except.ok (Demo.envelope "create" [("title", Any.string "hi")] "") ∧
      dispatched (loopBody Demo.env Demo.msgCreateNoSource Demo.w0).trace =
        [Demo.envelope "create" [("title", Any.string "hi")] ""] ∧
      Demo.w0.store = [] ∧
      (loopBody Demo.env Demo.msgCreateNoSource Demo.w0).world.store =
        [{ collection := Demo.notes, isNew := false,
           data := [("title", Any.string "hi"), ("eventSource", Any.string ""),
             ("id", Any.string "r")] }] ∧
      (loopBody Demo.env Demo.msgCreateNoSource Demo.w0).world.store ≠ Demo.w0.store :=
  ⟨rfl, rfl, rfl, rfl, fun h => List.noConfusion h⟩

/-- C6, the code at failing inputs: an update envelope whose record has no
`id`, and a create envelope whose record is a JSON string, make `processEvent`
panic on the unchecked type assertion (nothing is logged after the
invocation, the store is untouched); in the subscriber loop the panic ends the
run, so the valid create message that follows is never applied. -/
theorem malformed_envelope_panics :
    Demo.env.jsonUnmarshal Demo.msgUpdateNoId =
        Except.ok (Demo.envelope "update" [("title", Any.string "new")] "siteB") ∧
      processEvent Demo.env (Demo.envelope "update" [("title", Any.string "new")] "siteB")
          Demo.w1 =
        Res.panic "interface conversion: interface \x7b\x7d is not string" Demo.w1
          [Call.processEvent (Demo.envelope "update" [("title", Any.string "new")] "siteB")] ∧
      processEvent Demo.env
          { Event := "create", Collection := "notes", Record := Payload.any (Any.string "x"),
            Source := "siteB" } Demo.w1 =
        Res.panic "interface conversion: interface \x7b\x7d is not map[string]interface \x7b\x7d" Demo.w1
          [Call.processEvent
            { Event := "create", Collection := "notes", Record := Payload.any (Any.string "x"),
              Source := "siteB" }] ∧
      (drain Demo.env [Demo.msgUpdateNoId, Demo.msgCreate] Demo.w1).panicked = true ∧
      (drain Demo.env [Demo.msgUpdateNoId, Demo.msgCreate] Demo.w1).world = Demo.w1 ∧
      (drain Demo.env [Demo.msgCreate] Demo.w1).world.store.length = 2 :=
  ⟨rfl, rfl, rfl, rfl, rfl, rfl⟩

end Loop

section Reconciler

variable {σ β : Type}

@[simp] theorem run_FindRecordById (env : Env σ β) (collection id : String) (w : World σ β) :
    FindRecordById env collection id w =
      Res.ret
        (match env.findRecordById w.store collection id with
          | Except.ok r => Except.ok { r with isNew := false }
          | Except.error err => Except.error err)
        w [Call.findRecordById collection id] := rfl

@[simp] theorem run_FindCollectionByNameOrId (env : Env σ β) (name : String) (w : World σ β) :
    FindCollectionByNameOrId env name w =
      Res.ret (env.findCollectionByNameOrId w.store name) w
        [Call.findCollectionByNameOrId name] := rfl

@[simp] theorem run_Publish (env : Env σ β) (channel payload : String) (w : World σ β) :
    Publish env channel payload w =
      Res.ret (env.busPublish w.bus channel payload).2
        { w with bus := (env.busPublish w.bus channel payload).1 }
        [Call.publish channel payload] := rfl

@[simp] theorem run_assertString_string (s : String) (w : World σ β) :
    (assertString (Any.string s) : M (World σ β) String) w = Res.ret s w [] := rfl

@[simp] theorem run_assertMap_map (kvs : Fields) (w : World σ β) :
    (assertMap (Payload.any (Any.map kvs)) : M (World σ β) Fields) w = Res.ret kvs w [] := rfl

theorem updateRecord_unknown (env : Env σ β) (w : World σ β) (collection id : String)
    (m : Fields) (ctx : Context) (err : GoError)
    (hid : m.get "id" = some (Any.string id))
    (hfind : env.findRecordById w.store collection id = Except.error err) :
    updateRecord env collection m ctx w =
      Res.ret () w [Call.findRecordById collection id,
        Call.log "error" "Record not found:" [err]] := by
  simp [updateRecord, hid, hfind]

theorem deleteRecord_unknown (env : Env σ β) (w : World σ β) (collection id : String)
    (m : Fields) (ctx : Context) (err : GoError)
    (hid : m.get "id" = some (Any.string id))
    (hfind : env.findRecordById w.store collection id = Except.error err) :
    deleteRecord env collection m ctx w =
      Res.ret () w [Call.findRecordById collection id,
        Call.log "error" "Record not found:" [err]] := by
  simp [deleteRecord, hid, hfind]

/-- C7: an inbound update or delete whose string id the store does not find
is a no-op.  `updateRecord` and `deleteRecord` return normally in the world
they started in after exactly two calls, the look-up and the error log line;
`processEvent` on such an envelope does the same, so nothing is handed to
`app.Save` or `app.Delete`, nothing is published and nothing panics. -/
theorem unknown_id_is_noop (env : Env σ β) (w : World σ β) (e : event) (id : String)
    (m : Fields) (err : GoError)
    (hkind : e.Event = "update" ∨ e.Event = "delete")
    (hrec : e.Record = Payload.any (Any.map m))
    (hid : m.get "id" = some (Any.string id))
    (hfind : env.findRecordById w.store e.Collection id = Except.error err) :
    (∀ ctx, updateRecord env e.Collection m ctx w =
        Res.ret () w [Call.findRecordById e.Collection id,
          Call.log "error" "Record not found:" [err]]) ∧
      (∀ ctx, deleteRecord env e.Collection m ctx w =
        Res.ret () w [Call.findRecordById e.Collection id,
          Call.log "error" "Record not found:" [err]]) ∧
      processEvent env e w =
        Res.ret () w [Call.processEvent e, Call.findRecordById e.Collection id,
          Call.log "error" "Record not found:" [err]] ∧
      savedRecords (processEvent env e w).trace = [] ∧
      deletedRecords (processEvent env e w).trace = [] ∧
      published (processEvent env e w).trace = [] ∧
      (processEvent env e w).world = w ∧
      (processEvent env e w).panicked = false := by
  have hp : processEvent env e w =
        Res.ret () w [Call.processEvent e, Call.findRecordById e.Collection id,
          Call.log "error" "Record not found:" [err]] := by
    rcases hkind with hk | hk
    · simp [processEvent, hk, hrec, updateRecord_unknown env w e.Collection id m _ err hid hfind]
    · simp [processEvent, hk, hrec, deleteRecord_unknown env w e.Collection id m _ err hid hfind]
  refine ⟨fun ctx => updateRecord_unknown env w e.Collection id m ctx err hid hfind,
    fun ctx => deleteRecord_unknown env w e.Collection id m ctx err hid hfind, hp, ?_, ?_, ?_, ?_, ?_⟩
  all_goals rw [hp]; rfl

/-- Witness for C7: the demo store holds the note `r` and no record `zzz`. -/
theorem unknown_id_is_noop_witness :
    Fields.get [("id", Any.string "zzz")] "id" = some (Any.string "zzz") ∧
      Demo.env.findRecordById Demo.w1.store "notes" "zzz" =
        Except.error "sql: no rows in result set" ∧
      processEvent Demo.env (Demo.envelope "delete" [("id", Any.string "zzz")] "siteB")
          Demo.w1 =
        Res.ret () Demo.w1
          [Call.processEvent (Demo.envelope "delete" [("id", Any.string "zzz")] "siteB"),
            Call.findRecordById "notes" "zzz",
            Call.log "error" "Record not found:" ["sql: no rows in result set"]] :=
  ⟨rfl, rfl, (unknown_id_is_noop Demo.env Demo.w1
    (Demo.envelope "delete" [("id", Any.string "zzz")] "siteB") "zzz"
    [("id", Any.string "zzz")] "sql: no rows in result set" (Or.inr rfl) rfl rfl rfl).2.2.1⟩

/-! ### The publisher -/

theorem publishEvent_error (env : Env σ β) (kind collection : String) (record : Payload)
    (source : String) (w : World σ β) (err : GoError)
    (h : env.jsonMarshal
      { Event := kind, Collection := collection, Record := record, Source := source } =
        Except.error err) :
    publishEvent env kind collection record source w =
      Res.ret (some err) w [Call.log "error" "Failed to marshal event:" [err]] := by
  simp [publishEvent, h]

theorem publishEvent_ok (env : Env σ β) (kind collection : String) (record : Payload)
    (source : String) (w : World σ β) (payload : String)
    (h : env.jsonMarshal
      { Event := kind, Collection := collection, Record := record, Source := source } =
        Except.ok payload) :
    publishEvent env kind collection record source w =
      Res.ret (env.busPublish w.bus "pocketbase:events:publisher" payload).2
        { w with bus := (env.busPublish w.bus "pocketbase:events:publisher" payload).1 }
        [Call.log "info" "Publishing Redis event:"
            ["type", kind, "collection", collection, "source", source],
          Call.publish "pocketbase:events:publisher" payload] := by
  simp [publishEvent, h]

theorem recordHook_next_error (env : Env σ β) (kind : String) (ev : RecordEvent σ)
    (w : World σ β) (err : GoError) (h : ev.Next w.store ev.Record = Except.error err) :
    recordHook env kind ev w = Res.ret (some err) w [] := by
  simp [recordHook, h]

theorem recordHook_marshal_error (env : Env σ β) (kind : String) (ev : RecordEvent σ)
    (w : World σ β) (st : σ) (r : Record) (err : GoError)
    (h : ev.Next w.store ev.Record = Except.ok (st, r))
    (hm : env.jsonMarshal (outEnvelope env kind r) = Except.error err) :
    recordHook env kind ev w =
      Res.ret (some err) { w with store := st }
        [Call.log "error" "Failed to marshal event:" [err]] := by
  simp only [recordHook, h]
  exact publishEvent_error env kind _ _ _ _ err hm

theorem recordHook_marshal_ok (env : Env σ β) (kind : String) (ev : RecordEvent σ)
    (w : World σ β) (st : σ) (r : Record) (payload : String)
    (h : ev.Next w.store ev.Record = Except.ok (st, r))
    (hm : env.jsonMarshal (outEnvelope env kind r) = Except.ok payload) :
    recordHook env kind ev w =
      Res.ret (env.busPublish w.bus "pocketbase:events:publisher" payload).2
        { store := st, bus := (env.busPublish w.bus "pocketbase:events:publisher" payload).1 }
        [Call.log "info" "Publishing Redis event:"
            ["type", kind, "collection", r.collection.Name, "source",
              (outEnvelope env kind r).Source],
          Call.publish "pocketbase:events:publisher" payload] := by
  simp only [recordHook, h]
  exact publishEvent_ok env kind _ _ _ _ payload hm

theorem registered_eq (env : Env σ β)
    (kh : String × (RecordEvent σ → M (World σ β) (Option GoError)))
    (h : kh ∈ registered env) :
    (kh.1 = "create" ∨ kh.1 = "update" ∨ kh.1 = "delete") ∧ kh.2 = recordHook env kh.1 := by
  simp only [registered, List.mem_cons, List.mem_singleton, List.not_mem_nil, or_false] at h
  rcases h with h | h | h <;> subst h <;> simp [Register]

/-- C5, as amended: when the mutation has committed (`e.Next()` returned
`nil`) and publishing fails, either because `json.Marshal` of the envelope
fails or because the bus write fails, each hook bound by `Register` returns
that very error to the store.  The hook itself does nothing to the store
after the commit: the store is in the state `e.Next()` left, and the hook
makes no save or delete call. -/
theorem hook_returns_publish_error (env : Env σ β)
    (kh : String × (RecordEvent σ → M (World σ β) (Option GoError)))
    (hkh : kh ∈ registered env) (ev : RecordEvent σ) (w : World σ β) (st : σ) (r : Record)
    (err : GoError)
    (hnext : ev.Next w.store ev.Record = Except.ok (st, r))
    (hfail : env.jsonMarshal (outEnvelope env kh.1 r) = Except.error err ∨
      ∃ payload, env.jsonMarshal (outEnvelope env kh.1 r) = Except.ok payload ∧
        (env.busPublish w.bus "pocketbase:events:publisher" payload).2 = some err) :
    (kh.2 ev w).value? = some (some err) ∧ (kh.2 ev w).world.store = st ∧
      savedRecords (kh.2 ev w).trace = [] ∧ deletedRecords (kh.2 ev w).trace = [] := by
  rw [(registered_eq env kh hkh).2]
  rcases hfail with hm | ⟨payload, hm, hb⟩
  · rw [recordHook_marshal_error env kh.1 ev w st r err hnext hm]
    exact ⟨rfl, rfl, rfl, rfl⟩
  · rw [recordHook_marshal_ok env kh.1 ev w st r payload hnext hm, hb]
    exact ⟨rfl, rfl, rfl, rfl⟩

/-- Witness for C5: the create hook on a bus that refuses the write. -/
theorem hook_returns_publish_error_witness :
    Demo.commitSave Demo.w0.store Demo.localNote =
        Except.ok ([{ Demo.localNote.Set "id" (Any.string "r") with isNew := false }],
          { Demo.localNote.Set "id" (Any.string "r") with isNew := false }) ∧
      ((Register Demo.envBusDown).OnRecordCreate
          { Record := Demo.localNote, Next := Demo.commitSave } Demo.w0).value? =
        some (some "dial tcp: connection refused") ∧
      ((Register Demo.envBusDown).OnRecordCreate
          { Record := Demo.localNote, Next := Demo.commitSave } Demo.w0).world.store =
        [{ Demo.localNote.Set "id" (Any.string "r") with isNew := false }] :=
  have h := hook_returns_publish_error Demo.envBusDown
    ("create", (Register Demo.envBusDown).OnRecordCreate) (List.mem_cons_self _ _)
    { Record := Demo.localNote, Next := Demo.commitSave } Demo.w0
    [{ Demo.localNote.Set "id" (Any.string "r") with isNew := false }]
    { Demo.localNote.Set "id" (Any.string "r") with isNew := false }
    "dial tcp: connection refused" rfl (Or.inr ⟨"create notes pocketbase", rfl, rfl⟩)
  ⟨rfl, h.1, h.2.1⟩

/-- C5, counterexample: a local create commits, the bus write fails, and the
create hook returns the bus error instead of `nil`; the same happens with the
marshal error when the record holds a NaN.  Through `app.Save` the error
reaches the caller of the mutation. -/
theorem hook_publish_failure_counterexample :
    ((Register Demo.envBusDown).OnRecordCreate
          { Record := Demo.localNote, Next := Demo.commitSave } Demo.w0).value? =
        some (some "dial tcp: connection refused") ∧
      ((Register Demo.env).OnRecordCreate
          { Record := Demo.nanNote, Next := Demo.commitSave } Demo.w0).value? =
        some (some "json: unsupported value: NaN") ∧
      (Save Demo.envBusDown Demo.localNote Demo.w0).value? =
        some (some "dial tcp: connection refused") :=
  ⟨rfl, rfl, rfl⟩

/-- C8, as amended: for a committed create, update or delete whose envelope
`json.Marshal` encodes, the hook bound by `Register` makes exactly one bus
write, on `pocketbase:events:publisher`, and its payload is the encoding of
the envelope whose event is the mutation kind, whose collection is the name
of the collection of the record, and whose source is the `eventSource` tag of
the record when that is non-empty and `"pocketbase"` otherwise; so the source
is never empty.  When `json.Marshal` fails nothing is published. -/
theorem hook_publishes_one_envelope (env : Env σ β)
    (kh : String × (RecordEvent σ → M (World σ β) (Option GoError)))
    (hkh : kh ∈ registered env) (ev : RecordEvent σ) (w : World σ β) (st : σ) (r : Record)
    (hnext : ev.Next w.store ev.Record = Except.ok (st, r)) :
    (∀ payload, env.jsonMarshal (outEnvelope env kh.1 r) = Except.ok payload →
        published (kh.2 ev w).trace = [("pocketbase:events:publisher", payload)]) ∧
      (∀ err, env.jsonMarshal (outEnvelope env kh.1 r) = Except.error err →
        published (kh.2 ev w).trace = []) ∧
      (outEnvelope env kh.1 r).Event = kh.1 ∧
      (outEnvelope env kh.1 r).Collection = r.collection.Name ∧
      (outEnvelope env kh.1 r).Source ≠ "" ∧
      (Record.GetString env.formatFloat r "eventSource" = "" →
        (outEnvelope env kh.1 r).Source = "pocketbase") ∧
      (Record.GetString env.formatFloat r "eventSource" ≠ "" →
        (outEnvelope env kh.1 r).Source = Record.GetString env.formatFloat r "eventSource") := by
  rw [(registered_eq env kh hkh).2]
  refine ⟨?_, ?_, rfl, rfl, ?_, ?_, ?_⟩
  · intro payload hm
    rw [recordHook_marshal_ok env kh.1 ev w st r payload hnext hm]
    rfl
  · intro err hm
    rw [recordHook_marshal_error env kh.1 ev w st r err hnext hm]
    rfl
  · by_cases ht : Record.GetString env.formatFloat r "eventSource" = ""
    · simp [outEnvelope, ht]
    · simp [outEnvelope, ht]
  · intro ht
    simp [outEnvelope, ht]
  · intro ht
    simp [outEnvelope, ht]

/-- Witness for C8: a local create with default provenance in the demo
environment is published once, with source `pocketbase`. -/
theorem hook_publishes_one_envelope_witness :
    Demo.commitSave Demo.w0.store Demo.localNote =
        Except.ok ([{ Demo.localNote.Set "id" (Any.string "r") with isNew := false }],
          { Demo.localNote.Set "id" (Any.string "r") with isNew := false }) ∧
      published ((Register Demo.env).OnRecordCreate
          { Record := Demo.localNote, Next := Demo.commitSave } Demo.w0).trace =
        [("pocketbase:events:publisher", "create notes pocketbase")] :=
  ⟨rfl, (hook_publishes_one_envelope Demo.env ("create", (Register Demo.env).OnRecordCreate)
    (List.mem_cons_self _ _) { Record := Demo.localNote, Next := Demo.commitSave } Demo.w0
    [{ Demo.localNote.Set "id" (Any.string "r") with isNew := false }]
    { Demo.localNote.Set "id" (Any.string "r") with isNew := false } rfl).1
      "create notes pocketbase" rfl⟩

/-- C8, counterexample: a local create of a record that holds a NaN commits
(the store has the record), `json.Marshal` rejects the envelope, and the
create hook publishes nothing. -/
theorem hook_publishes_nothing_counterexample :
    ((Register Demo.env).OnRecordCreate
          { Record := Demo.nanNote, Next := Demo.commitSave } Demo.w0).world.store =
        [{ Demo.nanNote.Set "id" (Any.string "r") with isNew := false }] ∧
      published ((Register Demo.env).OnRecordCreate
          { Record := Demo.nanNote, Next := Demo.commitSave } Demo.w0).trace = [] :=
  ⟨rfl, rfl⟩

/-! ### `app.Save` with the hooks bound, and the two writers -/

theorem Save_run (env : Env σ β) (r : Record) (w : World σ β) :
    Save env r w =
      (recordHook env (if r.isNew then "create" else "update")
        { Record := r, Next := env.commitSave } w).prepend [Call.save r] := by
  cases hn : r.isNew <;> simp [Save, Register, hn]

/-- The three ways `app.Save` can go: the commit fails; the commit succeeds
and the envelope does not marshal; the commit succeeds and the envelope is
handed to the bus. -/
theorem Save_cases (env : Env σ β) (r : Record) (w : World σ β) :
    (∃ err, env.commitSave w.store r = Except.error err ∧
        Save env r w = Res.ret (some err) w [Call.save r]) ∨
      (∃ st r1 err, env.commitSave w.store r = Except.ok (st, r1) ∧
        env.jsonMarshal (outEnvelope env (if r.isNew then "create" else "update") r1) =
          Except.error err ∧
        Save env r w = Res.ret (some err) { w with store := st }
          [Call.save r, Call.log "error" "Failed to marshal event:" [err]]) ∨
      (∃ st r1 payload, env.commitSave w.store r = Except.ok (st, r1) ∧
        env.jsonMarshal (outEnvelope env (if r.isNew then "create" else "update") r1) =
          Except.ok payload ∧
        Save env r w =
          Res.ret (env.busPublish w.bus "pocketbase:events:publisher" payload).2
            { store := st,
              bus := (env.busPublish w.bus "pocketbase:events:publisher" payload).1 }
            [Call.save r,
              Call.log "info" "Publishing Redis event:"
                ["type", (if r.isNew then "create" else "update"), "collection",
                  r1.collection.Name, "source",
                  (outEnvelope env (if r.isNew then "create" else "update") r1).Source],
              Call.publish "pocketbase:events:publisher" payload]) := by
  rw [Save_run]
  cases hc : env.commitSave w.store r with
  | error err =>
    left
    refine ⟨err, rfl, ?_⟩
    rw [recordHook_next_error env _ { Record := r, Next := env.commitSave } w err hc]
    rfl
  | ok p =>
    obtain ⟨st, r1⟩ := p
    cases hm : env.jsonMarshal (outEnvelope env (if r.isNew then "create" else "update") r1) with
    | error err =>
      right; left
      refine ⟨st, r1, err, rfl, hm, ?_⟩
      rw [recordHook_marshal_error env _ { Record := r, Next := env.commitSave } w st r1 err
        hc hm]
      rfl
    | ok payload =>
      right; right
      refine ⟨st, r1, payload, rfl, hm, ?_⟩
      rw [recordHook_marshal_ok env _ { Record := r, Next := env.commitSave } w st r1 payload
        hc hm]
      rfl

theorem createRecord_run (env : Env σ β) (collection : String) (m : Fields) (ctx : Context)
    (w : World σ β) (c : Collection) (src : String)
    (hfind : env.findCollectionByNameOrId w.store collection = Except.ok c)
    (hctx : ctx.Value "eventSource" = Any.string src) :
    createRecord env collection m ctx w =
      ((Save env ((copyFields m (NewRecord env c)).Set "eventSource" (Any.string src)) w).andThen
        (fun res w1 =>
          match res with
          | some err => Res.ret () w1 [Call.log "error" "Failed to save record:" [err]]
          | none => Res.ret () w1 [Call.log "info" "Created record from Redis event:"
              ["collection", collection, "source", src]])).prepend
        [Call.findCollectionByNameOrId collection] := by
  simp only [createRecord, run_bind, run_FindCollectionByNameOrId, hfind, andThen_ret, hctx,
    run_assertString_string, prepend_nil]
  congr 1
  congr 1
  funext res w1
  cases res <;> rfl

theorem updateRecord_run (env : Env σ β) (collection : String) (m : Fields) (ctx : Context)
    (w : World σ β) (id : String) (r0 : Record) (src : String)
    (hid : m.get "id" = some (Any.string id))
    (hfind : env.findRecordById w.store collection id = Except.ok r0)
    (hctx : ctx.Value "eventSource" = Any.string src) :
    updateRecord env collection m ctx w =
      ((Save env ((overwriteFields m { r0 with isNew := false }).Set "eventSource"
          (Any.string src)) w).andThen
        (fun res w1 =>
          match res with
          | some err => Res.ret () w1 [Call.log "error" "Failed to save record:" [err]]
          | none => Res.ret () w1 [Call.log "info" "Updated record from Redis event:"
              ["collection", collection, "id", id, "source", src]])).prepend
        [Call.findRecordById collection id] := by
  simp only [updateRecord, run_bind, hid, Option.getD_some, run_assertString_string,
    andThen_ret, run_FindRecordById, hfind, hctx, prepend_nil]
  congr 1
  congr 1
  funext res w1
  cases res <;> rfl

theorem copyFields_frame (m : Fields) (r : Record) :
    (copyFields m r).isNew = r.isNew ∧ (copyFields m r).collection = r.collection :=
  foldl_write_frame
    (fun k => k ≠ "id" ∧ k ≠ "created" ∧ k ≠ "updated" ∧ k ≠ "collectionId" ∧
      k ≠ "collectionName") _ (fun _ _ => rfl) m r

theorem overwriteFields_frame (m : Fields) (r : Record) :
    (overwriteFields m r).isNew = r.isNew ∧ (overwriteFields m r).collection = r.collection :=
  foldl_write_frame (fun _ => True) _ (fun _ _ => by simp) m r

theorem createRecord_facts (env : Env σ β) (collection : String) (m : Fields) (ctx : Context)
    (w : World σ β) (c : Collection) (src : String)
    (hfind : env.findCollectionByNameOrId w.store collection = Except.ok c)
    (hctx : ctx.Value "eventSource" = Any.string src) :
    savedRecords (createRecord env collection m ctx w).trace =
        [(copyFields m (NewRecord env c)).Set "eventSource" (Any.string src)] ∧
      (createRecord env collection m ctx w).panicked = false ∧
      (∀ st r1, env.commitSave w.store
          ((copyFields m (NewRecord env c)).Set "eventSource" (Any.string src)) =
            Except.ok (st, r1) →
        (createRecord env collection m ctx w).world.store = st) ∧
      (savedOK (createRecord env collection m ctx w).trace →
        ∃ st r1 payload, env.commitSave w.store
            ((copyFields m (NewRecord env c)).Set "eventSource" (Any.string src)) =
              Except.ok (st, r1) ∧
          env.jsonMarshal (outEnvelope env "create" r1) = Except.ok payload ∧
          published (createRecord env collection m ctx w).trace =
            [("pocketbase:events:publisher", payload)]) := by
  have hnew : ((copyFields m (NewRecord env c)).Set "eventSource" (Any.string src)).isNew
      = true := by
    show (copyFields m (NewRecord env c)).isNew = true
    rw [(copyFields_frame m (NewRecord env c)).1]
    rfl
  rw [createRecord_run env collection m ctx w c src hfind hctx]
  rcases Save_cases env ((copyFields m (NewRecord env c)).Set "eventSource" (Any.string src)) w
    with ⟨err, hc, hs⟩ | ⟨st, r1, err, hc, hm, hs⟩ | ⟨st, r1, payload, hc, hm, hs⟩
  · rw [hs, hc]
    refine ⟨rfl, rfl, ?_, ?_⟩
    · intro st r1 h
      cases h
    · intro h
      simp [savedOK, Res.trace] at h
  · rw [hs, hc]
    refine ⟨rfl, rfl, ?_, ?_⟩
    · intro st1 r2 h
      cases h
      rfl
    · intro h
      simp [savedOK, Res.trace] at h
  · rw [hs, hc]
    rw [hnew] at hm
    simp only [if_true] at hm
    cases hb : (env.busPublish w.bus "pocketbase:events:publisher" payload).2 with
    | some err =>
      refine ⟨rfl, rfl, ?_, ?_⟩
      · intro st1 r2 h
        cases h
        rfl
      · intro h
        simp [savedOK, Res.trace] at h
    | none =>
      refine ⟨rfl, rfl, ?_, ?_⟩
      · intro st1 r2 h
        cases h
        rfl
      · intro _
        exact ⟨st, r1, payload, rfl, hm, rfl⟩

theorem updateRecord_facts (env : Env σ β) (collection : String) (m : Fields) (ctx : Context)
    (w : World σ β) (id : String) (r0 : Record) (src : String)
    (hid : m.get "id" = some (Any.string id))
    (hfind : env.findRecordById w.store collection id = Except.ok r0)
    (hctx : ctx.Value "eventSource" = Any.string src) :
    savedRecords (updateRecord env collection m ctx w).trace =
        [(overwriteFields m { r0 with isNew := false }).Set "eventSource" (Any.string src)] ∧
      (updateRecord env collection m ctx w).panicked = false ∧
      (∀ st r1, env.commitSave w.store
          ((overwriteFields m { r0 with isNew := false }).Set "eventSource" (Any.string src)) =
            Except.ok (st, r1) →
        (updateRecord env collection m ctx w).world.store = st) ∧
      (savedOK (updateRecord env collection m ctx w).trace →
        ∃ st r1 payload, env.commitSave w.store
            ((overwriteFields m { r0 with isNew := false }).Set "eventSource"
              (Any.string src)) = Except.ok (st, r1) ∧
          env.jsonMarshal (outEnvelope env "update" r1) = Except.ok payload ∧
          published (updateRecord env collection m ctx w).trace =
            [("pocketbase:events:publisher", payload)]) := by
  have hnew : ((overwriteFields m { r0 with isNew := false }).Set "eventSource"
      (Any.string src)).isNew = false := by
    show (overwriteFields m { r0 with isNew := false }).isNew = false
    rw [(overwriteFields_frame m { r0 with isNew := false }).1]
  rw [updateRecord_run env collection m ctx w id r0 src hid hfind hctx]
  rcases Save_cases env
      ((overwriteFields m { r0 with isNew := false }).Set "eventSource" (Any.string src)) w
    with ⟨err, hc, hs⟩ | ⟨st, r1, err, hc, hm, hs⟩ | ⟨st, r1, payload, hc, hm, hs⟩
  · rw [hs, hc]
    refine ⟨rfl, rfl, ?_, ?_⟩
    · intro st r1 h
      cases h
    · intro h
      simp [savedOK, Res.trace] at h
  · rw [hs, hc]
    refine ⟨rfl, rfl, ?_, ?_⟩
    · intro st1 r2 h
      cases h
      rfl
    · intro h
      simp [savedOK, Res.trace] at h
  · rw [hs, hc]
    rw [hnew] at hm
    simp only [Bool.false_eq_true, if_false] at hm
    cases hb : (env.busPublish w.bus "pocketbase:events:publisher" payload).2 with
    | some err =>
      refine ⟨rfl, rfl, ?_, ?_⟩
      · intro st1 r2 h
        cases h
        rfl
      · intro h
        simp [savedOK, Res.trace] at h
    | none =>
      refine ⟨rfl, rfl, ?_, ?_⟩
      · intro st1 r2 h
        cases h
        rfl
      · intro _
        exact ⟨st, r1, payload, rfl, hm, rfl⟩

/-! ### `processEvent` on create and update envelopes -/

theorem processEvent_create (env : Env σ β) (e : event) (m : Fields) (w : World σ β)
    (hkind : e.Event = "create") (hrec : e.Record = Payload.any (Any.map m)) :
    processEvent env e w =
      (createRecord env e.Collection m
        (Context.WithValue Context.Background "eventSource" (Any.string e.Source)) w).prepend
        [Call.processEvent e] := by
  simp [processEvent, hkind, hrec]

theorem processEvent_update (env : Env σ β) (e : event) (m : Fields) (w : World σ β)
    (hkind : e.Event = "update") (hrec : e.Record = Payload.any (Any.map m)) :
    processEvent env e w =
      (updateRecord env e.Collection m
        (Context.WithValue Context.Background "eventSource" (Any.string e.Source)) w).prepend
        [Call.processEvent e] := by
  simp [processEvent, hkind, hrec]

theorem ctx_value (src : String) :
    Context.Value (Context.WithValue Context.Background "eventSource" (Any.string src))
      "eventSource" = Any.string src := rfl

theorem savedRecords_processEvent_cons (e : event) (tr : List Call) :
    savedRecords (Call.processEvent e :: tr) = savedRecords tr := rfl

theorem published_processEvent_cons (e : event) (tr : List Call) :
    published (Call.processEvent e :: tr) = published tr := rfl

theorem published_log_cons (level msg : String) (args : List String) (tr : List Call) :
    published (Call.log level msg args :: tr) = published tr := rfl

theorem published_find_cons (collection id : String) (tr : List Call) :
    published (Call.findRecordById collection id :: tr) = published tr := rfl

/-- C3, as amended: for an inbound create envelope naming an existing
collection, with record map `m` (a Go map, so its keys are distinct),
`createRecord` hands exactly one record to `app.Save`.  It is a new record of
that collection in which every key of `m` other than `id`, `created`,
`updated`, `collectionId`, `collectionName` and `eventSource` holds the value
`m` gives it, the five server-managed keys are as in a fresh record (nothing
is taken from `m`), and `eventSource` is the source of the envelope.  The run
does not panic, and when the commit succeeds the store is in the state the
commit of that record produced. -/
theorem createRecord_copies_fields (env : Env σ β) (w : World σ β) (e : event) (m : Fields)
    (c : Collection)
    (hkind : e.Event = "create") (hrec : e.Record = Payload.any (Any.map m))
    (hnd : m.keys.Nodup)
    (hfind : env.findCollectionByNameOrId w.store e.Collection = Except.ok c) :
    ∃ r, savedRecords (processEvent env e w).trace = [r] ∧
      r.isNew = true ∧ r.collection = c ∧
      (∀ key v, key ∉ serverManaged → key ≠ "eventSource" → m.get key = some v →
        r.data.get key = some v) ∧
      (∀ key, key ∈ serverManaged → r.data.get key = (NewRecord env c).data.get key) ∧
      r.data.get "eventSource" = some (Any.string e.Source) ∧
      (processEvent env e w).panicked = false ∧
      (∀ st r1, env.commitSave w.store r = Except.ok (st, r1) →
        (processEvent env e w).world.store = st) := by
  obtain ⟨h1, h2, h3, _⟩ := createRecord_facts env e.Collection m _ w c e.Source hfind
    (ctx_value e.Source)
  have hw := foldl_write
    (fun k => k ≠ "id" ∧ k ≠ "created" ∧ k ≠ "updated" ∧ k ≠ "collectionId" ∧
      k ≠ "collectionName")
    (fun r kv =>
      if kv.1 ≠ "id" ∧ kv.1 ≠ "created" ∧ kv.1 ≠ "updated" ∧
          kv.1 ≠ "collectionId" ∧ kv.1 ≠ "collectionName"
      then r.Set kv.1 kv.2 else r)
    (fun _ _ => rfl) m hnd (NewRecord env c)
  have hf := copyFields_frame m (NewRecord env c)
  refine ⟨(copyFields m (NewRecord env c)).Set "eventSource" (Any.string e.Source),
    ?_, ?_, ?_, ?_, ?_, ?_, ?_, ?_⟩
  · rw [processEvent_create env e m w hkind hrec, trace_prepend]
    exact h1
  · show (copyFields m (NewRecord env c)).isNew = true
    rw [hf.1]; rfl
  · show (copyFields m (NewRecord env c)).collection = c
    rw [hf.2]; rfl
  · intro key v hkey hes hm
    have hP : key ≠ "id" ∧ key ≠ "created" ∧ key ≠ "updated" ∧ key ≠ "collectionId" ∧
        key ≠ "collectionName" := by
      simpa [serverManaged] using hkey
    have hes2 : ¬ "eventSource" = key := fun h => hes h.symm
    show (Fields.set (copyFields m (NewRecord env c)).data "eventSource" _).get key = some v
    rw [Fields.get_set, if_neg hes2]
    have := hw.1 key
    rw [if_pos hP, hm] at this
    exact this
  · intro key hkey
    have hP : ¬ (key ≠ "id" ∧ key ≠ "created" ∧ key ≠ "updated" ∧ key ≠ "collectionId" ∧
        key ≠ "collectionName") := by
      simp only [serverManaged, List.mem_cons, List.mem_singleton, List.not_mem_nil,
        or_false] at hkey
      rcases hkey with h | h | h | h | h <;> simp [h]
    have hes2 : ¬ "eventSource" = key := by
      simp only [serverManaged, List.mem_cons, List.mem_singleton, List.not_mem_nil,
        or_false] at hkey
      rcases hkey with h | h | h | h | h <;> rw [h] <;> decide
    show (Fields.set (copyFields m (NewRecord env c)).data "eventSource" _).get key = _
    rw [Fields.get_set, if_neg hes2]
    have := hw.1 key
    rw [if_neg hP] at this
    exact this
  · show (Fields.set (copyFields m (NewRecord env c)).data "eventSource" _).get "eventSource"
      = _
    rw [Fields.get_set, if_pos rfl]
  · rw [processEvent_create env e m w hkind hrec, panicked_prepend]
    exact h2
  · intro st r1 hc
    rw [processEvent_create env e m w hkind hrec, world_prepend]
    exact h3 st r1 hc

/-- C4, as amended: for an inbound update envelope whose record map `m` (a Go
map, so its keys are distinct) carries the string id of a record the store
finds, `updateRecord` hands exactly one record to `app.Save`: the found
record in which every key of `m` other than `eventSource` holds the value `m`
gives it, every field other than `eventSource` that is absent from `m` has its
prior value, and `eventSource` is the source of the envelope.  The run does
not panic, and when the commit succeeds the store is in the state the commit
of that record produced. -/
theorem updateRecord_merges_fields (env : Env σ β) (w : World σ β) (e : event) (m : Fields)
    (id : String) (r0 : Record)
    (hkind : e.Event = "update") (hrec : e.Record = Payload.any (Any.map m))
    (hnd : m.keys.Nodup)
    (hid : m.get "id" = some (Any.string id))
    (hfind : env.findRecordById w.store e.Collection id = Except.ok r0) :
    ∃ r, savedRecords (processEvent env e w).trace = [r] ∧
      r.isNew = false ∧ r.collection = r0.collection ∧
      (∀ key v, key ≠ "eventSource" → m.get key = some v → r.data.get key = some v) ∧
      (∀ key, key ≠ "eventSource" → m.get key = none → r.data.get key = r0.data.get key) ∧
      r.data.get "eventSource" = some (Any.string e.Source) ∧
      (processEvent env e w).panicked = false ∧
      (∀ st r1, env.commitSave w.store r = Except.ok (st, r1) →
        (processEvent env e w).world.store = st) := by
  obtain ⟨h1, h2, h3, _⟩ := updateRecord_facts env e.Collection m _ w id r0 e.Source hid hfind
    (ctx_value e.Source)
  have hw := foldl_write (fun _ => True) (fun r kv => r.Set kv.1 kv.2)
    (fun _ _ => by simp) m hnd { r0 with isNew := false }
  have hf := overwriteFields_frame m { r0 with isNew := false }
  refine ⟨(overwriteFields m { r0 with isNew := false }).Set "eventSource"
    (Any.string e.Source), ?_, ?_, ?_, ?_, ?_, ?_, ?_, ?_⟩
  · rw [processEvent_update env e m w hkind hrec, trace_prepend]
    exact h1
  · show (overwriteFields m { r0 with isNew := false }).isNew = false
    rw [hf.1]
  · show (overwriteFields m { r0 with isNew := false }).collection = r0.collection
    rw [hf.2]
  · intro key v hes hm
    have hes2 : ¬ "eventSource" = key := fun h => hes h.symm
    show (Fields.set (overwriteFields m { r0 with isNew := false }).data "eventSource"
      _).get key = some v
    rw [Fields.get_set, if_neg hes2]
    have := hw.1 key
    rw [if_pos trivial, hm] at this
    exact this
  · intro key hes hm
    have hes2 : ¬ "eventSource" = key := fun h => hes h.symm
    show (Fields.set (overwriteFields m { r0 with isNew := false }).data "eventSource"
      _).get key = _
    rw [Fields.get_set, if_neg hes2]
    have := hw.1 key
    rw [if_pos trivial, hm] at this
    exact this
  · show (Fields.set (overwriteFields m { r0 with isNew := false }).data "eventSource"
      _).get "eventSource" = _
    rw [Fields.get_set, if_pos rfl]
  · rw [processEvent_update env e m w hkind hrec, panicked_prepend]
    exact h2
  · intro st r1 hc
    rw [processEvent_update env e m w hkind hrec, world_prepend]
    exact h3 st r1 hc

/-- Witness for C3: the create example of the spec, title `hi` from
`siteB`. -/
theorem createRecord_copies_fields_witness :
    Fields.keys [("title", Any.string "hi")] = ["title"] ∧
      Demo.env.findCollectionByNameOrId Demo.w0.store "notes" = Except.ok Demo.notes ∧
      ∃ r, savedRecords (processEvent Demo.env
          (Demo.envelope "create" [("title", Any.string "hi")] "siteB") Demo.w0).trace = [r] ∧
        r.isNew = true ∧ r.collection = Demo.notes ∧
        (∀ key v, key ∉ serverManaged → key ≠ "eventSource" →
          Fields.get [("title", Any.string "hi")] key = some v → r.data.get key = some v) ∧
        (∀ key, key ∈ serverManaged →
          r.data.get key = (NewRecord Demo.env Demo.notes).data.get key) ∧
        r.data.get "eventSource" = some (Any.string "siteB") ∧
        (processEvent Demo.env
          (Demo.envelope "create" [("title", Any.string "hi")] "siteB") Demo.w0).panicked
            = false ∧
        (∀ st r1, Demo.env.commitSave Demo.w0.store r = Except.ok (st, r1) →
          (processEvent Demo.env
            (Demo.envelope "create" [("title", Any.string "hi")] "siteB")
              Demo.w0).world.store = st) :=
  ⟨rfl, rfl, createRecord_copies_fields Demo.env Demo.w0
    (Demo.envelope "create" [("title", Any.string "hi")] "siteB")
    [("title", Any.string "hi")] Demo.notes rfl rfl (by simp [Fields.keys]) rfl⟩

/-- C3, counterexample: a create envelope from `siteB` whose record map gives
`eventSource` the value `siteA`.  `eventSource` is not one of the five
server-managed keys, yet the record handed to `app.Save` holds `siteB` there,
not the value of the map. -/
theorem createRecord_tag_counterexample :
    Demo.env.jsonUnmarshal Demo.msgCreateTagged =
        Except.ok (Demo.envelope "create"
          [("title", Any.string "hi"), ("eventSource", Any.string "siteA")] "siteB") ∧
      "eventSource" ∉ serverManaged ∧
      Fields.get [("title", Any.string "hi"), ("eventSource", Any.string "siteA")]
        "eventSource" = some (Any.string "siteA") ∧
      savedRecords (loopBody Demo.env Demo.msgCreateTagged Demo.w0).trace =
        [{ collection := Demo.notes, isNew := true,
           data := [("title", Any.string "hi"), ("eventSource", Any.string "siteB")] }] ∧
      Fields.get [("title", Any.string "hi"), ("eventSource", Any.string "siteB")]
        "eventSource" ≠ some (Any.string "siteA") :=
  ⟨rfl, by decide, rfl, rfl, by simp [Fields.get]⟩

/-- Witness for C4: the update example of the spec, a new title for the
stored note, whose body is kept. -/
theorem updateRecord_merges_fields_witness :
    Fields.keys [("id", Any.string "r"), ("title", Any.string "new")] = ["id", "title"] ∧
      Demo.env.findRecordById Demo.w1.store "notes" "r" = Except.ok Demo.note ∧
      ∃ r, savedRecords (processEvent Demo.env
          (Demo.envelope "update" [("id", Any.string "r"), ("title", Any.string "new")]
            "siteB") Demo.w1).trace = [r] ∧
        r.isNew = false ∧ r.collection = Demo.note.collection ∧
        (∀ key v, key ≠ "eventSource" →
          Fields.get [("id", Any.string "r"), ("title", Any.string "new")] key = some v →
          r.data.get key = some v) ∧
        (∀ key, key ≠ "eventSource" →
          Fields.get [("id", Any.string "r"), ("title", Any.string "new")] key = none →
          r.data.get key = Demo.note.data.get key) ∧
        r.data.get "eventSource" = some (Any.string "siteB") ∧
        (processEvent Demo.env
          (Demo.envelope "update" [("id", Any.string "r"), ("title", Any.string "new")]
            "siteB") Demo.w1).panicked = false ∧
        (∀ st r1, Demo.env.commitSave Demo.w1.store r = Except.ok (st, r1) →
          (processEvent Demo.env
            (Demo.envelope "update" [("id", Any.string "r"), ("title", Any.string "new")]
              "siteB") Demo.w1).world.store = st) :=
  ⟨rfl, rfl, updateRecord_merges_fields Demo.env Demo.w1
    (Demo.envelope "update" [("id", Any.string "r"), ("title", Any.string "new")] "siteB")
    [("id", Any.string "r"), ("title", Any.string "new")] "r" Demo.note rfl rfl
    (by simp [Fields.keys]) rfl rfl⟩

/-- C4, counterexample: an update envelope from `siteB` for the stored note
whose record map gives `eventSource` the value `siteA`.  After the save the
key `eventSource` of the map does not hold the map value: the record handed to
`app.Save`, and the stored record, hold `siteB`. -/
theorem updateRecord_tag_counterexample :
    Demo.env.jsonUnmarshal Demo.msgUpdateTagged =
        Except.ok (Demo.envelope "update"
          [("id", Any.string "r"), ("eventSource", Any.string "siteA")] "siteB") ∧
      Fields.get [("id", Any.string "r"), ("eventSource", Any.string "siteA")]
        "eventSource" = some (Any.string "siteA") ∧
      savedRecords (loopBody Demo.env Demo.msgUpdateTagged Demo.w1).trace =
        [{ collection := Demo.notes, isNew := false,
           data := [("id", Any.string "r"), ("title", Any.string "old"),
             ("body", Any.string "text"), ("eventSource", Any.string "siteB")] }] ∧
      (loopBody Demo.env Demo.msgUpdateTagged Demo.w1).world.store =
        [{ collection := Demo.notes, isNew := false,
           data := [("id", Any.string "r"), ("title", Any.string "old"),
             ("body", Any.string "text"), ("eventSource", Any.string "siteB")] }] ∧
      Fields.get [("id", Any.string "r"), ("title", Any.string "old"),
          ("body", Any.string "text"), ("eventSource", Any.string "siteB")]
        "eventSource" ≠ some (Any.string "siteA") :=
  ⟨rfl, rfl, rfl, rfl, by simp [Fields.get]⟩

/-! ### Replay and re-publish -/

theorem outEnvelope_tagged (env : Env σ β) (kind src : String) (r r1 : Record)
    (hne : src ≠ "")
    (hr : r.data.get "eventSource" = some (Any.string src))
    (htag : r1.Get "eventSource" = r.Get "eventSource") :
    outEnvelope env kind r1 =
      { Event := kind, Collection := r1.collection.Name, Record := Payload.record r1,
        Source := src } := by
  have h : Record.GetString env.formatFloat r1 "eventSource" = src := by
    unfold Record.GetString
    rw [htag]
    simp [Record.Get, hr, castToString]
  simp [outEnvelope, h, hne]

theorem savedOK_loop_cons (payload : String) (e : event) (tr : List Call)
    (h : savedOK (Call.log "debug" "Received message:" [payload] :: Call.processEvent e :: tr)) :
    savedOK tr := by
  obtain ⟨args, h⟩ := h
  refine ⟨args, ?_⟩
  simpa using h

theorem loopBody_dispatch (env : Env σ β) (w : World σ β) (payload : String) (e : event)
    (hdec : env.jsonUnmarshal payload = Except.ok e) (hnd : e.Source ≠ "pocketbase") :
    loopBody env payload w =
      (processEvent env e w).prepend [Call.log "debug" "Received message:" [payload]] := by
  simp [loopBody, hdec, hnd]

theorem run_assertMap_not_map (p : Payload) (w : World σ β)
    (h : ∀ m, p ≠ Payload.any (Any.map m)) :
    (assertMap p : M (World σ β) Fields) w =
      Res.panic "interface conversion: interface \x7b\x7d is not map[string]interface \x7b\x7d"
        w [] := by
  cases p with
  | record r => rfl
  | any v =>
    cases v with
    | map kvs => exact absurd rfl (h kvs)
    | nil => rfl
    | bool b => rfl
    | float64 b => rfl
    | string s => rfl
    | slice xs => rfl

theorem processEvent_not_map (env : Env σ β) (e : event) (w : World σ β)
    (hkind : e.Event = "create" ∨ e.Event = "update")
    (h : ∀ m, e.Record ≠ Payload.any (Any.map m)) :
    (processEvent env e w).trace = [Call.processEvent e] := by
  rcases hkind with hk | hk <;>
    simp [processEvent, hk, run_assertMap_not_map e.Record w h, Res.trace]

/-- C2: an inbound create or update envelope with a non-empty source other
than `"pocketbase"` that the reconciler applies successfully (the success line
of `createRecord` or `updateRecord` is written, which happens exactly when
`app.Save` returned `nil`) is re-published once by the hook `Register` bound:
the iteration makes exactly one bus write, on `pocketbase:events:publisher`,
and its payload is the encoding of an envelope whose source is the source of
the inbound envelope and whose event is the kind of the inbound envelope.
The store is assumed not to rewrite the `eventSource` field on commit. -/
theorem replay_keeps_original_source (env : Env σ β) (w : World σ β) (payload : String)
    (e : event)
    (hdec : env.jsonUnmarshal payload = Except.ok e)
    (hkind : e.Event = "create" ∨ e.Event = "update")
    (hne : e.Source ≠ "") (hnd : e.Source ≠ "pocketbase")
    (htag : ∀ st r st1 r1, env.commitSave st r = Except.ok (st1, r1) →
      r1.Get "eventSource" = r.Get "eventSource")
    (hok : savedOK (loopBody env payload w).trace) :
    ∃ r payloadOut,
      env.jsonMarshal
          { Event := e.Event, Collection := r.collection.Name, Record := Payload.record r,
            Source := e.Source } = Except.ok payloadOut ∧
        published (loopBody env payload w).trace =
          [("pocketbase:events:publisher", payloadOut)] := by
  rw [loopBody_dispatch env w payload e hdec hnd] at hok ⊢
  obtain ⟨m, hrec⟩ : ∃ m : Fields, e.Record = Payload.any (Any.map m) := by
    by_contra hno
    have htr := processEvent_not_map env e w hkind (fun m hm => hno ⟨m, hm⟩)
    rw [trace_prepend, htr] at hok
    simp [savedOK] at hok
  rcases hkind with hk | hk
  · rw [processEvent_create env e m w hk hrec] at hok ⊢
    simp only [trace_prepend, prepend_prepend] at hok ⊢
    have hok2 := savedOK_loop_cons payload e _ hok
    cases hfind : env.findCollectionByNameOrId w.store e.Collection with
    | error err =>
      simp [createRecord, hfind, savedOK, Res.trace] at hok2
    | ok c =>
      obtain ⟨_, _, _, h4⟩ := createRecord_facts env e.Collection m _ w c e.Source hfind
        (ctx_value e.Source)
      obtain ⟨st, r1, payloadOut, hc, hm, hp⟩ := h4 hok2
      refine ⟨r1, payloadOut, ?_, ?_⟩
      · rw [outEnvelope_tagged env "create" e.Source _ r1 hne
          (by show (Fields.set _ "eventSource" _).get "eventSource" = _
              rw [Fields.get_set, if_pos rfl])
          (htag _ _ _ _ hc)] at hm
        rw [hk]
        exact hm
      · show published (_ :: Call.processEvent e :: _) = _
        rw [published_log_cons, published_processEvent_cons]
        exact hp
  · rw [processEvent_update env e m w hk hrec] at hok ⊢
    simp only [trace_prepend, prepend_prepend] at hok ⊢
    have hok2 := savedOK_loop_cons payload e _ hok
    cases hv : m.get "id" with
    | none =>
      simp [updateRecord, hv, assertString, savedOK, Res.trace] at hok2
    | some v =>
      cases v with
      | string id =>
        cases hfind : env.findRecordById w.store e.Collection id with
        | error err =>
          rw [updateRecord_unknown env w e.Collection id m _ err hv hfind] at hok2
          simp [savedOK, Res.trace] at hok2
        | ok r0 =>
          obtain ⟨_, _, _, h4⟩ := updateRecord_facts env e.Collection m _ w id r0 e.Source
            hv hfind (ctx_value e.Source)
          obtain ⟨st, r1, payloadOut, hc, hm, hp⟩ := h4 hok2
          refine ⟨r1, payloadOut, ?_, ?_⟩
          · rw [outEnvelope_tagged env "update" e.Source _ r1 hne
              (by show (Fields.set _ "eventSource" _).get "eventSource" = _
                  rw [Fields.get_set, if_pos rfl])
              (htag _ _ _ _ hc)] at hm
            rw [hk]
            exact hm
          · show published (_ :: Call.processEvent e :: _) = _
            rw [published_log_cons, published_processEvent_cons]
            exact hp
      | nil => simp [updateRecord, hv, assertString, savedOK, Res.trace] at hok2
      | bool b => simp [updateRecord, hv, assertString, savedOK, Res.trace] at hok2
      | float64 b => simp [updateRecord, hv, assertString, savedOK, Res.trace] at hok2
      | slice xs => simp [updateRecord, hv, assertString, savedOK, Res.trace] at hok2
      | map kvs => simp [updateRecord, hv, assertString, savedOK, Res.trace] at hok2

theorem Demo.commitSave_keeps_tag (st : Demo.Store) (r : Record) (st1 : Demo.Store)
    (r1 : Record) (h : Demo.commitSave st r = Except.ok (st1, r1)) :
    r1.Get "eventSource" = r.Get "eventSource" := by
  unfold Demo.commitSave at h
  cases hn : r.isNew with
  | true =>
    simp only [hn, if_true] at h
    injection h with h
    injection h with _ h2
    subst h2
    have hne : ¬ "id" = "eventSource" := by decide
    simp [Record.Get, Record.Set, Fields.get_set, hne]
  | false =>
    simp only [hn, Bool.false_eq_true, if_false] at h
    cases hv : r.data.get "id" with
    | none => simp [hv] at h
    | some v =>
      cases v with
      | string id =>
        simp only [hv] at h
        injection h with h
        injection h with _ h2
        subst h2
        rfl
      | nil => simp [hv] at h
      | bool b => simp [hv] at h
      | float64 b => simp [hv] at h
      | slice xs => simp [hv] at h
      | map kvs => simp [hv] at h

/-- Witness for C2: the create message from `siteB` in the demo environment
is applied and re-published with source `siteB`. -/
theorem replay_keeps_original_source_witness :
    Demo.env.jsonUnmarshal Demo.msgCreate =
        Except.ok (Demo.envelope "create" [("title", Any.string "hi")] "siteB") ∧
      savedOK (loopBody Demo.env Demo.msgCreate Demo.w0).trace ∧
      ∃ r payloadOut,
        Demo.env.jsonMarshal
            { Event := "create", Collection := r.collection.Name, Record := Payload.record r,
              Source := "siteB" } = Except.ok payloadOut ∧
          published (loopBody Demo.env Demo.msgCreate Demo.w0).trace =
            [("pocketbase:events:publisher", payloadOut)] :=
  have hok : savedOK (loopBody Demo.env Demo.msgCreate Demo.w0).trace :=
    ⟨["collection", "notes", "source", "siteB"], Or.inl (List.mem_iff_getElem?.2 ⟨6, rfl⟩)⟩
  ⟨rfl, hok, replay_keeps_original_source Demo.env Demo.w0 Demo.msgCreate
    (Demo.envelope "create" [("title", Any.string "hi")] "siteB")
    rfl (Or.inl rfl) (by decide) (by decide) Demo.commitSave_keeps_tag hok⟩

end Reconciler

end Plugins
